import Mathlib

/-!
# Shallow embedding of the opensomeip SOME/IP stack

This file embeds the parts of the opensomeip C++ implementation that the
verified properties talk about: the CRC module (`src/e2e/e2e_crc.cpp`),
the E2E header codec (`src/e2e/e2e_header.cpp`), the SOME/IP message codec
(`src/someip/message.cpp`), the reference E2E profile
(`src/e2e/e2e_profiles/standard_profile.cpp`), the E2E dispatch layer
(`src/e2e/e2e_protection.cpp` with `src/e2e/e2e_profile_registry.cpp`),
the SD IPv4 endpoint option (`src/sd/sd_message.cpp`), the TP segmenter and
reassembler (`src/tp/tp_segmenter.cpp`, `src/tp/tp_reassembler.cpp`) and the
primitive deserializer (`src/serialization/serializer.cpp`).

Bytes are modelled as `Nat` values; well-formedness predicates record the
`uint8_t`/`uint16_t`/`uint32_t` ranges where a proof needs them.  Machine
arithmetic is made explicit with `% 2^w`.  The steady-clock reads used by the
E2E profile are passed in as explicit `now` arguments (milliseconds).
-/

namespace someip

/-- Big-endian byte image of a 32-bit value (`htonl` followed by a byte-wise
copy in the source). -/
def be32 (v : Nat) : List Nat :=
  [v / 2^24 % 256, v / 2^16 % 256, v / 2^8 % 256, v % 256]

/-- Big-endian byte image of a 16-bit value (`htons` plus byte-wise copy). -/
def be16 (v : Nat) : List Nat :=
  [v / 2^8 % 256, v % 256]

/-- Big-endian read of four consecutive bytes starting at index `i`
(`ntohl` of a 4-byte load in the source). -/
def rd32 (data : List Nat) (i : Nat) : Nat :=
  data.getD i 0 * 2^24 + data.getD (i+1) 0 * 2^16 + data.getD (i+2) 0 * 2^8
    + data.getD (i+3) 0

/-- Big-endian read of two consecutive bytes starting at index `i`. -/
def rd16 (data : List Nat) (i : Nat) : Nat :=
  data.getD i 0 * 2^8 + data.getD (i+1) 0

namespace e2e

/-! ## CRC module (`src/e2e/e2e_crc.cpp`) -/

namespace E2ECRC

/-- One MSB-first CRC shift step of width `w` with polynomial `p`:
`crc = (crc << 1) ^ poly` when the top bit is set, else `crc <<= 1`, the
result truncated to `w` bits as by the `uintN_t` assignment in the source. -/
def crcShift (w p s : Nat) : Nat :=
  if s.testBit (w-1) then ((2 * s) ^^^ p) % 2^w else (2 * s) % 2^w

/-- `calculate_crc8_sae_j1850`: polynomial 0x1D, init 0xFF; per byte the
source xors the byte into the crc and performs eight shift steps. -/
def calculate_crc8_sae_j1850 (data : List Nat) : Nat :=
  data.foldl (fun crc byte => (crcShift 8 0x1D)^[8] (crc ^^^ byte)) 0xFF

/-- `calculate_crc16_itu_x25`: polynomial 0x1021, init 0xFFFF; per byte the
source xors `byte << 8` into the crc and performs eight shift steps. -/
def calculate_crc16_itu_x25 (data : List Nat) : Nat :=
  data.foldl (fun crc byte => (crcShift 16 0x1021)^[8] (crc ^^^ (byte * 2^8))) 0xFFFF

/-- Entry `i` of the lazily initialised CRC-32 lookup table:
`i << 24` followed by eight shift steps with polynomial 0x04C11DB7. -/
def crc32_table (i : Nat) : Nat :=
  (crcShift 32 0x04C11DB7)^[8] (i * 2^24 % 2^32)

/-- `calculate_crc32`: table-driven, init 0xFFFFFFFF;
`crc = (crc << 8) ^ table[((crc >> 24) ^ byte) & 0xFF]` (the `& 0xFF`
mask is written `% 256` here). -/
def calculate_crc32 (data : List Nat) : Nat :=
  data.foldl
    (fun crc byte => (crc * 2^8 % 2^32) ^^^ crc32_table ((crc / 2^24 ^^^ byte) % 256))
    0xFFFFFFFF

/-- Inverse of `crcShift` on `w`-bit values for an odd polynomial, used to
prove that each shift step is injective (proof device, not source code). -/
def crcUnshift (w p t : Nat) : Nat :=
  if t % 2 = 1 then (t ^^^ p) / 2 + 2^(w-1) else t / 2

/-- Common shape of the three bit-loop CRCs: per byte, xor `byte << sh` into
the state and run eight shift steps.  `calculate_crc8_sae_j1850` is the
instance `w = 8, sh = 0`, `calculate_crc16_itu_x25` is `w = 16, sh = 8`, and
the table-driven `calculate_crc32` is proved below to equal the instance
`w = 32, sh = 24`. -/
def crcFold (w p sh init : Nat) (data : List Nat) : Nat :=
  data.foldl (fun crc byte => (crcShift w p)^[8] (crc ^^^ (byte * 2^sh))) init

/-- `calculate_crc` dispatch: returns 0 when the requested range exceeds the
buffer or the crc type is unknown, else applies the selected CRC to the
`[offset, offset+length)` slice. -/
def calculate_crc (data : List Nat) (offset length : Nat) (crc_type : Nat) : Nat :=
  if data.length < offset + length then 0
  else
    match crc_type with
    | 0 => calculate_crc8_sae_j1850 ((data.drop offset).take length)
    | 1 => calculate_crc16_itu_x25 ((data.drop offset).take length)
    | 2 => calculate_crc32 ((data.drop offset).take length)
    | _ => 0

end E2ECRC

end e2e

/-! ## Result codes

Modelled from the spec: `common/result.h` is not under `src/`; §7 of the spec
lists the error categories, and the `.cpp` files in `src/` use exactly these
constants (`Result::SUCCESS`, `Result::INVALID_ARGUMENT`, ...). -/

inductive Result where
  | SUCCESS
  | INVALID_ARGUMENT
  | NOT_INITIALIZED
  | NOT_CONNECTED
  | INVALID_ENDPOINT
  | BUFFER_OVERFLOW
  | NETWORK_ERROR
  | TIMEOUT
  | MALFORMED_MESSAGE
deriving Repr, DecidableEq

namespace e2e

/-! ## E2E header (`src/e2e/e2e_header.cpp`) -/

structure E2EHeader where
  crc : Nat
  counter : Nat
  data_id : Nat
  freshness_value : Nat
deriving Repr, DecidableEq

namespace E2EHeader

/-- Fixed header size, 12 bytes. -/
def get_header_size : Nat := 12

/-- Well-formedness: the fields fit their C++ integer types
(`uint32_t`, `uint32_t`, `uint16_t`, `uint16_t`). -/
def WF (h : E2EHeader) : Prop :=
  h.crc < 2^32 ∧ h.counter < 2^32 ∧ h.data_id < 2^16 ∧ h.freshness_value < 2^16

instance : DecidablePred WF := fun h => by unfold WF; infer_instance

/-- `E2EHeader::serialize`: big-endian crc, counter, data id, freshness. -/
def serialize (h : E2EHeader) : List Nat :=
  be32 h.crc ++ be32 h.counter ++ be16 h.data_id ++ be16 h.freshness_value

/-- `E2EHeader::deserialize(data, offset)`: fails if fewer than 12 bytes remain
at `offset`, else reads the four big-endian fields. -/
def deserializeAt (data : List Nat) (offset : Nat) : Option E2EHeader :=
  if data.length < offset + get_header_size then none
  else some
    { crc := rd32 data offset
      counter := rd32 data (offset + 4)
      data_id := rd16 data (offset + 8)
      freshness_value := rd16 data (offset + 10) }

end E2EHeader

end e2e

/-! ## SOME/IP message (`src/someip/message.cpp`) -/

def SOMEIP_PROTOCOL_VERSION : Nat := 1

def SOMEIP_INTERFACE_VERSION : Nat := 1

def HEADER_SIZE : Nat := 16

/-- Modelled from the spec: `someip/message.h` is not under `src/`.  The spec
fixes the SOME/IP header at 16 bytes and `Message::deserialize` reads exactly
16 fixed bytes with per-field bounds checks, so the minimum parseable size is
16. -/
def MIN_MESSAGE_SIZE : Nat := 16

/-- Modelled from the spec: `someip/message.h` is not under `src/` and the
spec bounds payloads only by an unstated `MAX_TCP_PAYLOAD_SIZE`.  The exact
value does not affect any of the properties below (all considered payloads
are far smaller); the `uint32_t` length field bound is used. -/
def MAX_TCP_PAYLOAD_SIZE : Nat := 4294967295

/-- Modelled from the spec: the `MessageType` enumeration byte values of §3
(`message.h` is not under `src/`; `has_valid_message_type` in `message.cpp`
accepts exactly these eleven enumerators). -/
def validMessageTypeByte (t : Nat) : Bool :=
  t == 0x00 || t == 0x01 || t == 0x02 || t == 0x80 || t == 0x81 ||
  t == 0x40 || t == 0xC0 || t == 0xC1 || t == 0x20 || t == 0x21 || t == 0x22

/-- Return-code bytes accepted by `Message::has_valid_header`: the sixteen
enumerators `E_OK = 0x00` … `E_E2E_NO_NEW_DATA = 0x0F`. -/
def validReturnCodeByte (r : Nat) : Bool := r < 16

structure Message where
  service_id : Nat
  method_id : Nat
  length : Nat
  client_id : Nat
  session_id : Nat
  protocol_version : Nat
  interface_version : Nat
  message_type : Nat
  return_code : Nat
  e2e_header : Option e2e.E2EHeader
  payload : List Nat
deriving Repr, DecidableEq

namespace Message

/-- Well-formedness of the optional E2E header. -/
def optionHeaderWF : Option e2e.E2EHeader → Prop
  | none => True
  | some h => h.WF

instance : DecidablePred optionHeaderWF := fun o => by
  cases o <;> unfold optionHeaderWF <;> infer_instance

/-- Well-formedness: every field fits its C++ integer type; `message_type`
and `return_code` are single bytes; payload entries are bytes.
The `timestamp` field of the source is not modelled (the round-trip property
explicitly ignores it). -/
def WF (m : Message) : Prop :=
  m.service_id < 2^16 ∧ m.method_id < 2^16 ∧ m.length < 2^32 ∧
  m.client_id < 2^16 ∧ m.session_id < 2^16 ∧
  m.protocol_version < 2^8 ∧ m.interface_version < 2^8 ∧
  m.message_type < 2^8 ∧ m.return_code < 2^8 ∧
  optionHeaderWF m.e2e_header ∧ ∀ b ∈ m.payload, b < 2^8

instance : DecidablePred WF := fun m => by unfold WF; infer_instance

/-- `MessageId::to_uint32`: `(service_id << 16) | method_id`
(for `method_id < 2^16` the `|` is the `+` written here). -/
def message_id_u32 (m : Message) : Nat := m.service_id * 2^16 + m.method_id

/-- `RequestId::to_uint32`: `(client_id << 16) | session_id`. -/
def request_id_u32 (m : Message) : Nat := m.client_id * 2^16 + m.session_id

/-- Size contributed by the optional E2E header (0 or 12). -/
def e2e_size (m : Message) : Nat :=
  if m.e2e_header.isSome then e2e.E2EHeader.get_header_size else 0

/-- `Message::update_length`: `length_ = 8 + e2e_size + payload_.size()`
(assignment to the `uint32_t` field truncates). -/
def update_length (m : Message) : Message :=
  { m with length := (8 + m.e2e_size + m.payload.length) % 2^32 }

/-- `Message::set_e2e_header`: install the header and refresh the length. -/
def set_e2e_header (m : Message) (h : e2e.E2EHeader) : Message :=
  update_length { m with e2e_header := some h }

/-- `Message::serialize`: 16-byte big-endian fixed header, then the E2E header
if present, then the payload. -/
def serialize (m : Message) : List Nat :=
  be32 m.message_id_u32 ++ be32 m.length ++ be32 m.request_id_u32 ++
  [m.protocol_version, m.interface_version, m.message_type, m.return_code] ++
  (match m.e2e_header with
   | some h => h.serialize
   | none => []) ++
  m.payload

/-- `Message::has_valid_method_id`: reserved method id 0xFFFF is invalid. -/
def has_valid_method_id (m : Message) : Bool := m.method_id != 0xFFFF

/-- `Message::has_valid_length`: the length field covers at least the 8 bytes
from client id to return code. -/
def has_valid_length (m : Message) : Bool := 8 ≤ m.length

/-- `Message::has_valid_header` (the service-id, client-id and session-id
checks of the source accept everything). -/
def has_valid_header (m : Message) : Bool :=
  m.has_valid_method_id && m.has_valid_length &&
  validMessageTypeByte m.message_type &&
  (m.protocol_version == SOMEIP_PROTOCOL_VERSION) &&
  (m.interface_version == SOMEIP_INTERFACE_VERSION) &&
  (m.length == (8 + m.e2e_size + m.payload.length) % 2^32) &&
  validReturnCodeByte m.return_code

/-- `Message::has_valid_payload`. -/
def has_valid_payload (m : Message) : Bool :=
  m.payload.length ≤ MAX_TCP_PAYLOAD_SIZE

/-- `Message::is_valid`. -/
def is_valid (m : Message) : Bool := m.has_valid_header && m.has_valid_payload

/-- Repeated-byte-pattern test of `Message::deserialize`: all four crc bytes
equal, or all four counter bytes equal, or both freshness bytes equal. -/
def looksLikePayloadData (h : e2e.E2EHeader) : Bool :=
  (h.crc % 256 == h.crc / 2^8 % 256 && h.crc / 2^8 % 256 == h.crc / 2^16 % 256
     && h.crc / 2^16 % 256 == h.crc / 2^24 % 256) ||
  (h.counter % 256 == h.counter / 2^8 % 256
     && h.counter / 2^8 % 256 == h.counter / 2^16 % 256
     && h.counter / 2^16 % 256 == h.counter / 2^24 % 256) ||
  (h.freshness_value % 256 == h.freshness_value / 2^8 % 256)

/-- E2E-header presence heuristic of `Message::deserialize` (`len` is the
already-read length field; the read offset there is 16): at least 12 bytes
remain, `len ≥ 20`, the buffer size matches `16 + 12 + (len - 8 - 12)`, and
the tentatively deserialized header has a nonzero data id, some nonzero
field, and no repeated-byte pattern. -/
def e2eDetect (data : List Nat) (len : Nat) : Option e2e.E2EHeader :=
  if e2e.E2EHeader.get_header_size ≤ data.length - 16 ∧
     8 + e2e.E2EHeader.get_header_size ≤ len ∧
     data.length = 16 + e2e.E2EHeader.get_header_size +
       (len - 8 - e2e.E2EHeader.get_header_size) then
    match e2e.E2EHeader.deserializeAt data 16 with
    | none => none
    | some h =>
      if h.data_id ≠ 0 ∧ (h.crc ≠ 0 ∨ h.counter ≠ 0 ∨ h.freshness_value ≠ 0) ∧
         looksLikePayloadData h = false
      then some h else none
  else none

/-- Modelled from the spec: the E2E-presence conditions of
`Message::deserialize` exactly as the spec words them, stated directly on the
raw buffer bytes (to be compared with the source-derived `e2eDetect`): at
least 12 bytes remain after the 16 fixed header bytes, the length field is at
least 20, the total buffer size equals `16 + 12 + (length - 8 - 12)`, the
tentative header has a nonzero data id (bytes 24-25), at least one of
crc/counter/freshness nonzero, the four crc bytes (16-19) not all equal, the
four counter bytes (20-23) not all equal, and the two freshness bytes (26-27)
not equal. -/
def e2eHeuristicSpec (data : List Nat) (len : Nat) : Prop :=
  12 ≤ data.length - 16 ∧ 20 ≤ len ∧
  data.length = 16 + 12 + (len - 8 - 12) ∧
  rd16 data 24 ≠ 0 ∧
  (rd32 data 16 ≠ 0 ∨ rd32 data 20 ≠ 0 ∨ rd16 data 26 ≠ 0) ∧
  ¬(data.getD 16 0 = data.getD 17 0 ∧ data.getD 17 0 = data.getD 18 0 ∧
    data.getD 18 0 = data.getD 19 0) ∧
  ¬(data.getD 20 0 = data.getD 21 0 ∧ data.getD 21 0 = data.getD 22 0 ∧
    data.getD 22 0 = data.getD 23 0) ∧
  data.getD 26 0 ≠ data.getD 27 0

instance (data : List Nat) (len : Nat) : Decidable (e2eHeuristicSpec data len) := by
  unfold e2eHeuristicSpec; infer_instance

/-- `Message::deserialize`: read the 16 fixed header bytes, run the E2E
heuristic, check the remaining size against the length field, take the rest
as payload and finally require `is_valid` (the timestamp update touches only
the unmodelled timestamp). -/
def deserialize (data : List Nat) : Option Message :=
  if data.length < MIN_MESSAGE_SIZE then none
  else
    let len := rd32 data 4
    let detected := e2eDetect data len
    if len < 8 then none
    else
      let esz := if detected.isSome then e2e.E2EHeader.get_header_size else 0
      let offset := 16 + esz
      if data.length - offset ≠ len - 8 - esz then none
      else
        let m : Message :=
          { service_id := rd32 data 0 / 2^16
            method_id := rd32 data 0 % 2^16
            length := len
            client_id := rd32 data 8 / 2^16
            session_id := rd32 data 8 % 2^16
            protocol_version := data.getD 12 0
            interface_version := data.getD 13 0
            message_type := data.getD 14 0
            return_code := data.getD 15 0
            e2e_header := detected
            payload := data.drop offset }
        if m.is_valid then some m else none

/-- Payload mutation used by the E2E property: replace the byte at index `i`. -/
def mutatePayloadByte (m : Message) (i b : Nat) : Message :=
  { m with payload := m.payload.set i b }

end Message

namespace e2e

/-! ## E2E configuration (`src/include/e2e/e2e_config.h`) -/

structure E2EConfig where
  profile_id : Nat := 0
  profile_name : String := "standard"
  data_id : Nat := 0
  offset : Nat := 8
  enable_crc : Bool := true
  enable_counter : Bool := true
  enable_freshness : Bool := true
  max_counter_value : Nat := 0xFFFFFFFF
  freshness_timeout_ms : Nat := 1000
  crc_type : Nat := 1
deriving Repr, DecidableEq

/-! ## Reference profile (`src/e2e/e2e_profiles/standard_profile.cpp`)

`BasicE2EProfile` keeps two per-data-id maps (`std::unordered_map`, whose
`operator[]` default-constructs the value 0); they are modelled as total
functions with initial value 0.  The steady-clock millisecond reads are
passed in as the explicit argument `now`. -/

structure ProfileState where
  counters : Nat → Nat
  freshness_values : Nat → Nat

/-- Fresh `BasicE2EProfile` instance state: both maps empty. -/
def initialProfileState : ProfileState := ⟨fun _ => 0, fun _ => 0⟩

/-- Byte image CRC-protected by `BasicE2EProfile::protect`: message id,
the length the message will have once the E2E header is installed
(`8 + 12 + payload.size()`, a `uint32_t`), request id, the four version/type
bytes and the payload. -/
def protectCrcData (m : Message) : List Nat :=
  be32 m.message_id_u32 ++
  be32 ((8 + E2EHeader.get_header_size + m.payload.length) % 2^32) ++
  be32 m.request_id_u32 ++
  [m.protocol_version, m.interface_version, m.message_type, m.return_code] ++
  m.payload

/-- Byte image CRC-checked by `BasicE2EProfile::validate`: same as
`protectCrcData` but with the actual length field of the message. -/
def validateCrcData (m : Message) : List Nat :=
  be32 m.message_id_u32 ++ be32 m.length ++ be32 m.request_id_u32 ++
  [m.protocol_version, m.interface_version, m.message_type, m.return_code] ++
  m.payload

/-- `BasicE2EProfile::protect`: compute the CRC (if enabled), advance the
per-data-id counter (`uint32_t` increment, reset to 1 past
`max_counter_value`), stamp freshness with the low 16 bits of the clock, and
install the E2E header on the message.  Always returns `SUCCESS`. -/
def protect (st : ProfileState) (m : Message) (cfg : E2EConfig) (now : Nat) :
    Result × Message × ProfileState :=
  let cd := protectCrcData m
  let crc := if cfg.enable_crc then E2ECRC.calculate_crc cd 0 cd.length cfg.crc_type else 0
  let cp :=
    if cfg.enable_counter then
      let l1 := (st.counters cfg.data_id + 1) % 2^32
      let l2 := if cfg.max_counter_value < l1 then 1 else l1
      (l2, fun d => if d = cfg.data_id then l2 else st.counters d)
    else (0, st.counters)
  let fp :=
    if cfg.enable_freshness then
      (now % 2^16, fun d => if d = cfg.data_id then now % 2^16 else st.freshness_values d)
    else (0, st.freshness_values)
  (Result.SUCCESS, m.set_e2e_header ⟨crc, cp.1, cfg.data_id, fp.1⟩, ⟨cp.2, fp.2⟩)

/-- Mask applied before the CRC comparison in `validate`: low 8 bits for crc
type 0, low 16 bits for type 1, everything otherwise (`& 0xFF` and `& 0xFFFF`
written as `%`). -/
def maskCrc (crc_type v : Nat) : Nat :=
  if crc_type = 0 then v % 2^8 else if crc_type = 1 then v % 2^16 else v

/-- `config.max_counter_value - 10` as computed on `uint32_t`. -/
def maxMinus10 (cfg : E2EConfig) : Nat := (cfg.max_counter_value + 2^32 - 10) % 2^32

/-- Counter acceptance test of `BasicE2EProfile::validate` for a stored
last counter `last`. -/
def counterValid (cfg : E2EConfig) (last received : Nat) : Bool :=
  if last = 0 then decide (1 ≤ received ∧ received ≤ cfg.max_counter_value)
  else if received = last then true
  else if last < received then true
  else if maxMinus10 cfg < last then decide (1 ≤ received ∧ received ≤ 10)
  else false

/-- Freshness staleness test of `BasicE2EProfile::validate`: 16-bit wrap-around
difference between the current clock and the header freshness, compared
against the timeout. -/
def freshnessStale (cfg : E2EConfig) (freshness now : Nat) : Bool :=
  let current := now % 2^16
  let diff :=
    if freshness ≤ current then current - freshness
    else 0xFFFF - freshness + current + 1
  let tu := cfg.freshness_timeout_ms % 2^16
  decide (tu < diff ∧ diff < 0xFFFF - tu)

/-- `BasicE2EProfile::validate`: data-id check, CRC check, counter sequence
check (updating the stored counter), freshness check. -/
def validate (st : ProfileState) (m : Message) (cfg : E2EConfig) (now : Nat) :
    Result × ProfileState :=
  match m.e2e_header with
  | none => (Result.INVALID_ARGUMENT, st)
  | some header =>
    if header.data_id ≠ cfg.data_id then (Result.INVALID_ARGUMENT, st)
    else
      let vd := validateCrcData m
      if cfg.enable_crc ∧
         maskCrc cfg.crc_type header.crc ≠
           maskCrc cfg.crc_type (E2ECRC.calculate_crc vd 0 vd.length cfg.crc_type) then
        (Result.INVALID_ARGUMENT, st)
      else if cfg.enable_counter then
        let last := st.counters cfg.data_id
        if counterValid cfg last header.counter = false then (Result.INVALID_ARGUMENT, st)
        else
          let st' :=
            if last < header.counter ∨ (maxMinus10 cfg < last ∧ header.counter ≤ 10) then
              { st with counters := fun d => if d = cfg.data_id then header.counter else st.counters d }
            else st
          if cfg.enable_freshness ∧ freshnessStale cfg header.freshness_value now then
            (Result.TIMEOUT, st')
          else (Result.SUCCESS, st')
      else if cfg.enable_freshness ∧ freshnessStale cfg header.freshness_value now then
        (Result.TIMEOUT, st)
      else (Result.SUCCESS, st)

/-! ## Profile registry and dispatch (`src/e2e/e2e_profile_registry.cpp`,
`src/e2e/e2e_protection.cpp`)

The registry maps profile ids and names to registered profiles.  The only
`E2EProfile` implementation in the repository is `BasicE2EProfile`, so a
registered profile is modelled as an abstract handle (a `Nat`) identifying a
basic-profile instance whose state lives in a handle-indexed environment. -/

structure E2ERegistry where
  by_id : Nat → Option Nat
  by_name : String → Option Nat

/-- `E2EProfileRegistry::get_default_profile`: lookup of id 0. -/
def get_default_profile (r : E2ERegistry) : Option Nat := r.by_id 0

/-- Profile resolution performed by both `E2EProtection::protect` and
`E2EProtection::validate`: by id, then by name, then the default profile. -/
def resolveProfile (r : E2ERegistry) (cfg : E2EConfig) : Option Nat :=
  match r.by_id cfg.profile_id with
  | some p => some p
  | none =>
    match r.by_name cfg.profile_name with
    | some p => some p
    | none => get_default_profile r

/-- `E2EProtection::protect`: resolve the profile and delegate; with no
profile found the call fails with `NOT_INITIALIZED`. -/
def E2EProtection_protect (r : E2ERegistry) (env : Nat → ProfileState)
    (m : Message) (cfg : E2EConfig) (now : Nat) :
    Result × Message × (Nat → ProfileState) :=
  match resolveProfile r cfg with
  | none => (Result.NOT_INITIALIZED, m, env)
  | some p =>
    let out := protect (env p) m cfg now
    (out.1, out.2.1, fun q => if q = p then out.2.2 else env q)

/-- `E2EProtection::validate`: resolve the profile and delegate; with no
profile found the call fails with `NOT_INITIALIZED`. -/
def E2EProtection_validate (r : E2ERegistry) (env : Nat → ProfileState)
    (m : Message) (cfg : E2EConfig) (now : Nat) :
    Result × (Nat → ProfileState) :=
  match resolveProfile r cfg with
  | none => (Result.NOT_INITIALIZED, env)
  | some p =>
    let out := validate (env p) m cfg now
    (out.1, fun q => if q = p then out.2 else env q)

end e2e

namespace sd

/-! ## SD IPv4 endpoint option (`src/sd/sd_message.cpp`)

`IPv4EndpointOption` stores the address exactly as `inet_pton` produced it
(network byte order in memory) and reinterprets it as a host `uint32_t` when
shifting bytes out in `serialize`; the repository's unit test
(`test_sd.cpp`, `IPv4EndpointOptionSerialization`) documents the
little-endian host reading used here.  The port is stored in host order and
pushed through `htons` before the big-endian byte split. -/

/-- `set_ipv4_address_from_string` for the dotted quad `a.b.c.d`: the
network-order bytes `[a, b, c, d]` read back as a little-endian `uint32_t`. -/
def ipv4_from_octets (a b c d : Nat) : Nat :=
  ((d * 256 + c) * 256 + b) * 256 + a

/-- `htons` on a little-endian host: byte swap of a `uint16_t`. -/
def htons_le (p : Nat) : Nat := p % 256 * 256 + p / 256 % 256

/-- `IPv4EndpointOption::serialize` applied to a state with stored address
word `addr`, protocol byte and host-order port: option header
`{length = 8, type = 0x04, reserved}`, the four address bytes shifted out of
`addr` most-significant first, a reserved byte, the protocol, and the two
bytes of `htons(port)`. -/
def serializeIPv4EndpointOption (addr protocol port : Nat) : List Nat :=
  [0x00, 0x08, 0x04, 0x00] ++
  [addr / 2^24 % 256, addr / 2^16 % 256, addr / 2^8 % 256, addr % 256] ++
  [0x00, protocol % 256] ++
  [htons_le port / 2^8 % 256, htons_le port % 256]

end sd

namespace tp

/-! ## TP segmenter (`src/tp/tp_segmenter.cpp`) and reassembler
(`src/tp/tp_reassembler.cpp`)

`tp/tp_types.h` is not under `src/`; the `TpConfig`, `TpSegment` and
`TpReassemblyBuffer` record shapes are modelled from §3 of the spec and from
how the two `.cpp` files use them.  Machine-integer effects visible in the
segmenter code are kept: `next_sequence_number_` and `payload_offset` are
`uint8_t`/`uint16_t` (reduced `% 256` / `% 2^16` on every store),
`segment_length` is a `uint16_t` and `message_length` a `uint32_t`.
`reassembly_timeout` and the wall clock are not modelled (no claim below
involves them). -/

inductive TpResult where
  | SUCCESS
  | MESSAGE_TOO_LARGE
deriving Repr, DecidableEq

inductive TpMessageType where
  | FIRST_SEGMENT
  | CONSECUTIVE_SEGMENT
  | LAST_SEGMENT
  | SINGLE_MESSAGE
deriving Repr, DecidableEq

structure TpConfig where
  max_segment_size : Nat
  max_message_size : Nat
deriving Repr, DecidableEq

structure TpSegmentHeader where
  sequence_number : Nat
  segment_offset : Nat
  segment_length : Nat
  message_length : Nat
  message_type : TpMessageType
deriving Repr, DecidableEq

structure TpSegment where
  header : TpSegmentHeader
  payload : List Nat
deriving Repr, DecidableEq

/-- `TpSegmenter::add_tp_flag`: or the TP bit 0x20 into the message type. -/
def add_tp_flag (t : Nat) : Nat := t ||| 0x20

/-- TP header bytes: `(offset / 16) << 4 | more_segments`, big-endian
(`uint32_t` arithmetic). -/
def tpHeaderBytes (payload_offset : Nat) (more : Bool) : List Nat :=
  be32 (payload_offset / 16 * 16 % 2^32 + if more then 1 else 0)

/-- Loop of `TpSegmenter::create_multi_segments` producing the consecutive and
last segments.  `payload_offset` is the `uint16_t` loop variable; the fuel
argument makes the recursion structural and is chosen large enough at the
call site to cover every terminating C++ run. -/
def segLoop (cfg : TpConfig) (seq : Nat) (payload : List Nat) (total : Nat) :
    Nat → Nat → List TpSegment
  | 0, _ => []
  | fuel + 1, payload_offset =>
    if total ≤ payload_offset then []
    else
      let remaining := total - payload_offset
      let mtype :=
        if remaining ≤ cfg.max_segment_size then TpMessageType.LAST_SEGMENT
        else TpMessageType.CONSECUTIVE_SEGMENT
      let payload_size := min (cfg.max_segment_size - 4) remaining % 2^16
      let more := decide (payload_offset + payload_size < total)
      let segment_data :=
        tpHeaderBytes payload_offset more ++
        (payload.drop payload_offset).take payload_size
      let seg : TpSegment :=
        ⟨⟨seq, payload_offset, segment_data.length % 2^16, total % 2^32, mtype⟩,
          segment_data⟩
      seg :: segLoop cfg seq payload total fuel ((payload_offset + payload_size) % 2^16)

/-- `TpSegmenter::create_multi_segments`: the first segment carries the
16-byte SOME/IP header (TP flag set, length field patched to
`8 + 4 + first_payload_size`), the 4-byte TP header and the first payload
chunk; the loop produces the rest.  `seq` is the current
`next_sequence_number_`; the returned `Nat` is its final value (it is
incremented once when the sequence number is taken and once more at the end
of the function). -/
def create_multi_segments (cfg : TpConfig) (seq : Nat) (m : Message) :
    List TpSegment × Nat :=
  let payload := m.payload
  let total := payload.length
  let tp_m := { m with message_type := add_tp_flag m.message_type }
  let fps := min (cfg.max_segment_size - 16 - 4) total
  let hdr16 := tp_m.serialize.take 16
  let seg1_payload :=
    hdr16.take 4 ++ be32 ((8 + 4 + fps) % 2^32) ++ hdr16.drop 8 ++
    tpHeaderBytes 0 (decide (fps < total)) ++ payload.take fps
  let seg1 : TpSegment :=
    ⟨⟨seq % 256, 0, seg1_payload.length % 2^16, total % 2^32,
        TpMessageType.FIRST_SEGMENT⟩, seg1_payload⟩
  (seg1 :: segLoop cfg (seq % 256) payload total (total + 1) (fps % 2^16),
    (seq + 2) % 256)

/-- `TpSegmenter::segment_message`: oversized payloads fail with
`MESSAGE_TOO_LARGE`; payloads of at most `max_segment_size` bytes become one
`SINGLE_MESSAGE` segment holding the fully serialized message (TP flag added
when the payload exceeds 1000 bytes); larger payloads are split by
`create_multi_segments`. -/
def segment_message (cfg : TpConfig) (seq : Nat) (m : Message) :
    TpResult × List TpSegment × Nat :=
  if cfg.max_message_size < m.payload.length then (TpResult.MESSAGE_TOO_LARGE, [], seq)
  else if m.payload.length ≤ cfg.max_segment_size then
    let tp_m :=
      if 1000 < m.payload.length then { m with message_type := add_tp_flag m.message_type }
      else m
    let md := tp_m.serialize
    (TpResult.SUCCESS,
      [⟨⟨seq % 256, 0, md.length % 2^16, m.payload.length % 2^32,
          TpMessageType.SINGLE_MESSAGE⟩, md⟩],
      (seq + 1) % 256)
  else
    let out := create_multi_segments cfg seq m
    (TpResult.SUCCESS, out.1, out.2)

structure TpReassemblyBuffer where
  message_id : Nat
  total_length : Nat
  received_data : List Nat
  received_segments : List Bool
  last_sequence_number : Nat
  complete : Bool
deriving Repr, DecidableEq

/-- Buffer construction on the first FIRST/SINGLE segment.  Modelled from the
spec (§3, `TpReassemblyBuffer`) and the copy code of `tp_reassembler.cpp`,
which indexes `received_data` up to `total_length` directly: the data vector
is preallocated to `total_length`; the mask starts empty
(`mark_segment_received` resizes it before every use). -/
def newBuffer (seq total : Nat) : TpReassemblyBuffer :=
  ⟨seq, total, List.replicate total 0, [], 0, false⟩

/-- `TpReassemblyBuffer::is_segment_received`: every index of
`[offset, offset+length)` is inside the mask and set. -/
def is_segment_received (buf : TpReassemblyBuffer) (offset length : Nat) : Bool :=
  decide (∀ i < length, offset + i < buf.received_segments.length ∧
    buf.received_segments.getD (offset + i) false = true)

/-- `TpReassemblyBuffer::mark_segment_received`: grow the mask to
`total_length` if needed, then set the in-range bits of
`[offset, offset+length)`. -/
def mark_segment_received (buf : TpReassemblyBuffer) (offset length : Nat) :
    TpReassemblyBuffer :=
  let mask0 :=
    if buf.received_segments.length < buf.total_length then
      buf.received_segments ++
        List.replicate (buf.total_length - buf.received_segments.length) false
    else buf.received_segments
  let mask :=
    (List.range length).foldl
      (fun msk i => if offset + i < msk.length then msk.set (offset + i) true else msk)
      mask0
  { buf with received_segments := mask }

/-- `TpReassemblyBuffer::is_complete`. -/
def buffer_is_complete (buf : TpReassemblyBuffer) : Bool :=
  buf.complete || buf.received_segments.all (· = true)

/-- Overwrite `dst[offset .. offset+src.length)` with `src` (`std::copy` into
the preallocated data vector; every copy exercised below is in bounds, where
this agrees with the source). -/
def writeAt (dst : List Nat) (offset : Nat) (src : List Nat) : List Nat :=
  dst.take offset ++ src ++ dst.drop (offset + src.length)

/-- `TpReassembler::validate_segment`. -/
def validate_segment (cfg : TpConfig) (seg : TpSegment) : Bool :=
  (seg.header.segment_length == seg.payload.length) &&
  decide (seg.header.message_length ≤ cfg.max_message_size) &&
  decide (seg.header.segment_offset + seg.header.segment_length ≤
    seg.header.message_length)

/-- `TpReassembler::add_segment_to_buffer`: drop duplicates, bound-check,
copy (skipping the 16 SOME/IP header bytes for FIRST/SINGLE), mark the
received range and record the sequence number. -/
def add_segment_to_buffer (buf : TpReassemblyBuffer) (seg : TpSegment) :
    Bool × TpReassemblyBuffer :=
  if is_segment_received buf seg.header.segment_offset seg.header.segment_length then
    (true, buf)
  else if buf.total_length < seg.header.segment_offset + seg.header.segment_length then
    (false, buf)
  else
    let done := fun (b : TpReassemblyBuffer) (bytes : Nat) =>
      let b' := mark_segment_received b seg.header.segment_offset bytes
      (true, { b' with last_sequence_number := seg.header.sequence_number })
    match seg.header.message_type with
    | TpMessageType.FIRST_SEGMENT =>
      if 16 < seg.payload.length then
        done
          { buf with received_data :=
              writeAt buf.received_data seg.header.segment_offset (seg.payload.drop 16) }
          (seg.payload.length - 16)
      else done buf 0
    | TpMessageType.SINGLE_MESSAGE =>
      if 16 < seg.payload.length then
        done { buf with received_data := writeAt buf.received_data 0 (seg.payload.drop 16) }
          (seg.payload.length - 16)
      else done buf 0
    | _ =>
      done
        { buf with received_data :=
            writeAt buf.received_data seg.header.segment_offset seg.payload }
        seg.payload.length

/-- Buffer map operations (`std::map<uint32_t, unique_ptr<...>>` keyed by
sequence number, modelled as an association list). -/
def lookupBuf (bufs : List (Nat × TpReassemblyBuffer)) (k : Nat) :
    Option TpReassemblyBuffer :=
  (bufs.find? (fun kv => kv.1 == k)).map Prod.snd

def setBuf (bufs : List (Nat × TpReassemblyBuffer)) (k : Nat)
    (v : TpReassemblyBuffer) : List (Nat × TpReassemblyBuffer) :=
  if (bufs.find? (fun kv => kv.1 == k)).isSome then
    bufs.map (fun kv => if kv.1 = k then (k, v) else kv)
  else bufs ++ [(k, v)]

def eraseBuf (bufs : List (Nat × TpReassemblyBuffer)) (k : Nat) :
    List (Nat × TpReassemblyBuffer) :=
  bufs.filter (fun kv => kv.1 ≠ k)

/-- `TpReassembler::process_segment`: validate, find or create the buffer
(only FIRST/SINGLE may create one), add the segment, and on completion hand
out the reassembled data and drop the buffer.  Returns
`(accepted, completed payload, new buffer map)`. -/
def process_segment (cfg : TpConfig) (bufs : List (Nat × TpReassemblyBuffer))
    (seg : TpSegment) : Bool × Option (List Nat) × List (Nat × TpReassemblyBuffer) :=
  if validate_segment cfg seg = false then (false, none, bufs)
  else
    let key := seg.header.sequence_number
    let obuf :=
      match lookupBuf bufs key with
      | some b => some b
      | none =>
        if seg.header.message_type = TpMessageType.FIRST_SEGMENT ∨
           seg.header.message_type = TpMessageType.SINGLE_MESSAGE then
          some (newBuffer key seg.header.message_length)
        else none
    match obuf with
    | none => (false, none, bufs)
    | some buf =>
      let ab := add_segment_to_buffer buf seg
      if ab.1 && buffer_is_complete ab.2 then
        (true, some ab.2.received_data, eraseBuf bufs key)
      else (true, none, setBuf bufs key ab.2)

/-- Feed a list of segments to a fresh reassembler and return the first
completed payload, if any. -/
def runReassembly (cfg : TpConfig) (segs : List TpSegment) : Option (List Nat) :=
  (segs.foldl
    (fun acc seg =>
      let r := process_segment cfg acc.2 seg
      (acc.1 <|> r.2.1, r.2.2))
    ((none : Option (List Nat)), ([] : List (Nat × TpReassemblyBuffer)))).1

end tp

namespace serialization

/-! ## Primitive deserializer (`src/serialization/serializer.cpp`)

The positional deserializer over a borrowed byte buffer.  Each operation
returns its result together with the new deserializer state.  The only error
produced is `MALFORMED_MESSAGE`.  The float/double reads reinterpret the
big-endian 32/64-bit pattern as an IEEE value in the source; the bit pattern
itself is returned here (the positional behaviour, which the claims are
about, is exactly that of the corresponding unsigned read). -/

structure Deserializer where
  buffer : List Nat
  position : Nat
deriving Repr, DecidableEq

namespace Deserializer

/-- Constructor: position starts at 0. -/
def ofBuffer (data : List Nat) : Deserializer := ⟨data, 0⟩

/-- `Deserializer::reset`. -/
def reset (d : Deserializer) : Deserializer := { d with position := 0 }

/-- `Deserializer::deserialize_bool`: any nonzero byte is `true`. -/
def deserialize_bool (d : Deserializer) : Except Result Bool × Deserializer :=
  if d.buffer.length < d.position + 1 then (Except.error Result.MALFORMED_MESSAGE, d)
  else (Except.ok (d.buffer.getD d.position 0 != 0), { d with position := d.position + 1 })

/-- `Deserializer::deserialize_uint8`. -/
def deserialize_uint8 (d : Deserializer) : Except Result Nat × Deserializer :=
  if d.buffer.length < d.position + 1 then (Except.error Result.MALFORMED_MESSAGE, d)
  else (Except.ok (d.buffer.getD d.position 0), { d with position := d.position + 1 })

/-- `Deserializer::read_be_uint16`. -/
def read_be_uint16 (d : Deserializer) : Option Nat × Deserializer :=
  if d.buffer.length < d.position + 2 then (none, d)
  else (some (rd16 d.buffer d.position), { d with position := d.position + 2 })

/-- `Deserializer::read_be_uint32`. -/
def read_be_uint32 (d : Deserializer) : Option Nat × Deserializer :=
  if d.buffer.length < d.position + 4 then (none, d)
  else (some (rd32 d.buffer d.position), { d with position := d.position + 4 })

/-- Big-endian read of eight bytes (`read_be_uint64`'s manual conversion). -/
def rd64 (data : List Nat) (i : Nat) : Nat := rd32 data i * 2^32 + rd32 data (i + 4)

/-- `Deserializer::read_be_uint64`. -/
def read_be_uint64 (d : Deserializer) : Option Nat × Deserializer :=
  if d.buffer.length < d.position + 8 then (none, d)
  else (some (rd64 d.buffer d.position), { d with position := d.position + 8 })

/-- Lift an optional read to a `MALFORMED_MESSAGE`-failing one
(`deserialize_uint16` etc. wrap the `read_be_*` helpers this way). -/
def ofRead (r : Option Nat × Deserializer) : Except Result Nat × Deserializer :=
  match r with
  | (none, d) => (Except.error Result.MALFORMED_MESSAGE, d)
  | (some v, d) => (Except.ok v, d)

/-- `Deserializer::deserialize_uint16`. -/
def deserialize_uint16 (d : Deserializer) : Except Result Nat × Deserializer :=
  ofRead (read_be_uint16 d)

/-- `Deserializer::deserialize_uint32`. -/
def deserialize_uint32 (d : Deserializer) : Except Result Nat × Deserializer :=
  ofRead (read_be_uint32 d)

/-- `Deserializer::deserialize_uint64`. -/
def deserialize_uint64 (d : Deserializer) : Except Result Nat × Deserializer :=
  ofRead (read_be_uint64 d)

/-- Two's-complement reinterpretation (`static_cast<intN_t>`). -/
def toInt (w v : Nat) : Int :=
  if v < 2^(w-1) then (v : Int) else (v : Int) - 2^w

/-- `Deserializer::deserialize_int8`. -/
def deserialize_int8 (d : Deserializer) : Except Result Int × Deserializer :=
  match deserialize_uint8 d with
  | (Except.error e, d') => (Except.error e, d')
  | (Except.ok v, d') => (Except.ok (toInt 8 v), d')

/-- `Deserializer::deserialize_int16`. -/
def deserialize_int16 (d : Deserializer) : Except Result Int × Deserializer :=
  match read_be_uint16 d with
  | (none, d') => (Except.error Result.MALFORMED_MESSAGE, d')
  | (some v, d') => (Except.ok (toInt 16 v), d')

/-- `Deserializer::deserialize_int32`. -/
def deserialize_int32 (d : Deserializer) : Except Result Int × Deserializer :=
  match read_be_uint32 d with
  | (none, d') => (Except.error Result.MALFORMED_MESSAGE, d')
  | (some v, d') => (Except.ok (toInt 32 v), d')

/-- `Deserializer::deserialize_int64`. -/
def deserialize_int64 (d : Deserializer) : Except Result Int × Deserializer :=
  match read_be_uint64 d with
  | (none, d') => (Except.error Result.MALFORMED_MESSAGE, d')
  | (some v, d') => (Except.ok (toInt 64 v), d')

/-- `Deserializer::deserialize_float` (result is the 32-bit pattern). -/
def deserialize_float (d : Deserializer) : Except Result Nat × Deserializer :=
  ofRead (read_be_uint32 d)

/-- `Deserializer::deserialize_double` (result is the 64-bit pattern). -/
def deserialize_double (d : Deserializer) : Except Result Nat × Deserializer :=
  ofRead (read_be_uint64 d)

/-- `Deserializer::skip`: clamp to the buffer end. -/
def skip (d : Deserializer) (bytes : Nat) : Deserializer :=
  { d with position := min (d.position + bytes) d.buffer.length }

/-- `Deserializer::align_to`. -/
def align_to (d : Deserializer) (alignment : Nat) : Deserializer :=
  skip d ((alignment - d.position % alignment) % alignment)

/-- `Deserializer::set_position`: reject positions past the end. -/
def set_position (d : Deserializer) (pos : Nat) : Bool × Deserializer :=
  if pos ≤ d.buffer.length then (true, { d with position := pos }) else (false, d)

/-- `Deserializer::deserialize_string`: `uint32` length prefix, that many raw
bytes, then padding skipped up to a 4-byte boundary. -/
def deserialize_string (d : Deserializer) : Except Result (List Nat) × Deserializer :=
  match deserialize_uint32 d with
  | (Except.error e, d1) => (Except.error e, d1)
  | (Except.ok len, d1) =>
    if d1.buffer.length < d1.position + len then (Except.error Result.MALFORMED_MESSAGE, d1)
    else
      let s := (d1.buffer.drop d1.position).take len
      (Except.ok s, align_to { d1 with position := d1.position + len } 4)

end Deserializer

/-- Operation alphabet of the deserializer, used to state the
any-sequence-of-operations invariant. -/
inductive DeserOp where
  | rbool
  | ru8
  | ru16
  | ru32
  | ru64
  | ri8
  | ri16
  | ri32
  | ri64
  | rf32
  | rf64
  | rstr
  | setPos (p : Nat)
  | opSkip (n : Nat)
  | opAlign (a : Nat)
  | opReset
deriving Repr, DecidableEq

/-- State reached after one deserializer operation. -/
def runOp (d : Deserializer) : DeserOp → Deserializer
  | DeserOp.rbool => (Deserializer.deserialize_bool d).2
  | DeserOp.ru8 => (Deserializer.deserialize_uint8 d).2
  | DeserOp.ru16 => (Deserializer.deserialize_uint16 d).2
  | DeserOp.ru32 => (Deserializer.deserialize_uint32 d).2
  | DeserOp.ru64 => (Deserializer.deserialize_uint64 d).2
  | DeserOp.ri8 => (Deserializer.deserialize_int8 d).2
  | DeserOp.ri16 => (Deserializer.deserialize_int16 d).2
  | DeserOp.ri32 => (Deserializer.deserialize_int32 d).2
  | DeserOp.ri64 => (Deserializer.deserialize_int64 d).2
  | DeserOp.rf32 => (Deserializer.deserialize_float d).2
  | DeserOp.rf64 => (Deserializer.deserialize_double d).2
  | DeserOp.rstr => (Deserializer.deserialize_string d).2
  | DeserOp.setPos p => (Deserializer.set_position d p).2
  | DeserOp.opSkip n => Deserializer.skip d n
  | DeserOp.opAlign a => Deserializer.align_to d a
  | DeserOp.opReset => Deserializer.reset d

/-- State reached after a sequence of deserializer operations. -/
def runOps (d : Deserializer) (ops : List DeserOp) : Deserializer :=
  ops.foldl runOp d

end serialization

/-! ## Concrete fixtures for counterexample and witness theorems -/

/-- Small valid message without E2E header used by concrete evaluations. -/
def exMessage : Message :=
  { service_id := 0x1234
    method_id := 0x5678
    length := 12
    client_id := 0x9ABC
    session_id := 0xDEF0
    protocol_version := 1
    interface_version := 1
    message_type := 0
    return_code := 0
    e2e_header := none
    payload := [1, 2, 3, 4] }

/-- Profile state whose counter for data id 7 sits at the `uint32_t` wrap
point. -/
def exStateMax : e2e.ProfileState :=
  ⟨fun d => if d = 7 then 0xFFFFFFFF else 0, fun _ => 0⟩

/-- Profile state whose counter for data id 7 is one step before
`max_counter_value`. -/
def exStatePreMax : e2e.ProfileState :=
  ⟨fun d => if d = 7 then 0xFFFFFFFE else 0, fun _ => 0⟩

/-- E2E configuration with all protections enabled and the default 16-bit
CRC. -/
def exCfg : e2e.E2EConfig := { data_id := 7 }

/-- E2E configuration with an out-of-range crc type (the `calculate_crc`
dispatch returns 0 for it). -/
def exCfgBadCrcType : e2e.E2EConfig := { data_id := 7, crc_type := 3 }

/-- Counter-only E2E configuration used by the counter-sequence claim. -/
def exCfgCounter : e2e.E2EConfig :=
  { data_id := 7, enable_crc := false, enable_freshness := false }

/-- Valid message without E2E header whose first twelve payload bytes look
like a plausible E2E header to the deserializer's heuristic. -/
def exHeuristicTrap : Message :=
  { service_id := 0x1234
    method_id := 0x5678
    length := 20
    client_id := 0x9ABC
    session_id := 0xDEF0
    protocol_version := 1
    interface_version := 1
    message_type := 0
    return_code := 0
    e2e_header := none
    payload := [1, 2, 3, 4, 5, 6, 7, 8, 0, 1, 2, 3] }

/-- Valid message carrying an E2E header that passes the deserializer's
plausibility checks. -/
def exE2EMessage : Message :=
  { service_id := 0x1234
    method_id := 0x5678
    length := 21
    client_id := 0x9ABC
    session_id := 0xDEF0
    protocol_version := 1
    interface_version := 1
    message_type := 0
    return_code := 0
    e2e_header := some ⟨0xDEADBEEF, 5, 7, 0x1234⟩
    payload := [9] }

end someip

/-! # Theorems -/

namespace someip

theorem be32_length (v : Nat) : (be32 v).length = 4 := rfl

theorem be16_length (v : Nat) : (be16 v).length = 2 := rfl

theorem be32_bytes_lt (v : Nat) : ∀ b ∈ be32 v, b < 256 := by
  intro b hb
  simp only [be32, List.mem_cons, List.not_mem_nil, or_false] at hb
  rcases hb with h | h | h | h <;> subst h <;> exact Nat.mod_lt _ (by omega)

theorem be16_bytes_lt (v : Nat) : ∀ b ∈ be16 v, b < 256 := by
  intro b hb
  simp only [be16, List.mem_cons, List.not_mem_nil, or_false] at hb
  rcases hb with h | h <;> subst h <;> exact Nat.mod_lt _ (by omega)

/-! ## Bitwise helper lemmas -/

theorem bool_cond_xor (a b : Bool) (p : Nat) :
    (if (a ^^ b) = true then p else 0) =
      (if a = true then p else 0) ^^^ (if b = true then p else 0) := by
  cases a <;> cases b <;> simp [Nat.xor_self]

theorem shiftLeft_distrib_xor (x y n : Nat) : (x ^^^ y) <<< n = x <<< n ^^^ y <<< n := by
  apply Nat.eq_of_testBit_eq
  intro i
  simp [Nat.testBit_shiftLeft, Nat.testBit_xor, Bool.and_xor_distrib_left]

theorem mul_pow_distrib_xor (x y n : Nat) : (x ^^^ y) * 2^n = x * 2^n ^^^ y * 2^n := by
  have h := shiftLeft_distrib_xor x y n
  simpa [Nat.shiftLeft_eq] using h

theorem mod_two_pow_distrib_xor (x y n : Nat) : (x ^^^ y) % 2^n = x % 2^n ^^^ y % 2^n := by
  apply Nat.eq_of_testBit_eq
  intro i
  simp [Nat.testBit_mod_two_pow, Nat.testBit_xor, Bool.and_xor_distrib_left]

theorem two_mul_distrib_xor (x y : Nat) : 2 * (x ^^^ y) = 2 * x ^^^ 2 * y := by
  have h := shiftLeft_distrib_xor x y 1
  simpa [Nat.shiftLeft_eq, Nat.mul_comm] using h

theorem xor_odd_of_even_odd (u p : Nat) (hu : u % 2 = 0) (hp : p % 2 = 1) :
    (u ^^^ p) % 2 = 1 := by
  have h := Nat.testBit_xor u p 0
  rw [Nat.testBit_zero, Nat.testBit_zero, Nat.testBit_zero, hu, hp] at h
  simpa using h

theorem xor_left_cancel {c x y : Nat} (h : c ^^^ x = c ^^^ y) : x = y := by
  have hx : c ^^^ (c ^^^ x) = x := by
    rw [← Nat.xor_assoc, Nat.xor_self, Nat.zero_xor]
  have hy : c ^^^ (c ^^^ y) = y := by
    rw [← Nat.xor_assoc, Nat.xor_self, Nat.zero_xor]
  rw [← hx, ← hy, h]

theorem div_mod_two_pow_xor (c n : Nat) : (c / 2^n * 2^n) ^^^ (c % 2^n) = c := by
  apply Nat.eq_of_testBit_eq
  intro i
  rw [Nat.testBit_xor]
  have h1 : c / 2^n * 2^n = (c >>> n) <<< n := by
    rw [Nat.shiftLeft_eq, Nat.shiftRight_eq_div_pow]
  rw [h1, Nat.testBit_shiftLeft, Nat.testBit_mod_two_pow]
  by_cases hni : n ≤ i
  · have : ¬ i < n := by omega
    simp [hni, this, Nat.testBit_shiftRight, Nat.add_sub_cancel' hni]
  · have : i < n := by omega
    simp [hni, this]

/-! ## CRC shift-step theory -/

namespace e2e

namespace E2ECRC

theorem crcShift_lt (w p s : Nat) : crcShift w p s < 2^w := by
  unfold crcShift
  split <;> exact Nat.mod_lt _ (Nat.pos_pow_of_pos w (by omega))

theorem testBit_topbit (w s : Nat) (hw : 1 ≤ w) (hs : s < 2^w) :
    s.testBit (w-1) = decide (2^(w-1) ≤ s) := by
  have hw2 : 2^w = 2^(w-1) * 2 := by
    conv_lhs => rw [← Nat.sub_add_cancel hw]
    rw [pow_succ]
  rw [Nat.testBit_to_div_mod]
  rcases Nat.lt_or_ge s (2^(w-1)) with h | h
  · rw [Nat.div_eq_of_lt h]
    simp [Nat.not_le.2 h]
  · have hdiv : s / 2^(w-1) = 1 := by
      have hpos : 0 < 2^(w-1) := Nat.pos_pow_of_pos _ (by omega)
      have hlo : 1 ≤ s / 2^(w-1) := (Nat.le_div_iff_mul_le hpos).2 (by omega)
      have hhi : s / 2^(w-1) < 2 := (Nat.div_lt_iff_lt_mul hpos).2 (by omega)
      omega
    rw [hdiv]
    simp [h]

theorem crcShift_eq (w p s : Nat) (hp : p < 2^w) :
    crcShift w p s =
      (2 * s) % 2^w ^^^ (if s.testBit (w-1) = true then p else 0) := by
  unfold crcShift
  by_cases h : s.testBit (w-1) = true
  · rw [if_pos h, if_pos h, mod_two_pow_distrib_xor, Nat.mod_eq_of_lt hp]
  · rw [if_neg h, if_neg h, Nat.xor_zero]

theorem crcUnshift_crcShift (w p s : Nat) (hw : 1 ≤ w) (hp : p < 2^w)
    (hodd : p % 2 = 1) (hs : s < 2^w) : crcUnshift w p (crcShift w p s) = s := by
  have hw2 : 2^w = 2^(w-1) * 2 := by
    conv_lhs => rw [← Nat.sub_add_cancel hw]
    rw [pow_succ]
  unfold crcShift
  rcases Nat.lt_or_ge s (2^(w-1)) with hlt | hge
  · have htb : s.testBit (w-1) = false := Nat.testBit_lt_two_pow hlt
    rw [if_neg (by simp [htb])]
    have hmod : (2 * s) % 2^w = 2 * s := Nat.mod_eq_of_lt (by omega)
    rw [hmod]
    unfold crcUnshift
    rw [if_neg (by omega)]
    omega
  · have htb : s.testBit (w-1) = true := by
      rw [testBit_topbit w s hw hs]
      simp [hge]
    rw [if_pos (by simp [htb])]
    have hmod : (2 * s) % 2^w = 2 * s - 2^w := by
      rw [Nat.mod_eq_sub_mod (by omega), Nat.mod_eq_of_lt (by omega)]
    have hxmod : ((2 * s) ^^^ p) % 2^w = (2 * s - 2^w) ^^^ p := by
      rw [mod_two_pow_distrib_xor, hmod, Nat.mod_eq_of_lt hp]
    rw [hxmod]
    have hu_even : (2 * s - 2^w) % 2 = 0 := by omega
    have hodd' : ((2 * s - 2^w) ^^^ p) % 2 = 1 := xor_odd_of_even_odd _ _ hu_even hodd
    unfold crcUnshift
    rw [if_pos hodd', Nat.xor_cancel_right]
    omega

theorem crcShift_inj (w p : Nat) (hw : 1 ≤ w) (hp : p < 2^w) (hodd : p % 2 = 1)
    {s1 s2 : Nat} (h1 : s1 < 2^w) (h2 : s2 < 2^w)
    (he : crcShift w p s1 = crcShift w p s2) : s1 = s2 := by
  have e1 := crcUnshift_crcShift w p s1 hw hp hodd h1
  have e2 := crcUnshift_crcShift w p s2 hw hp hodd h2
  rw [← e1, ← e2, he]

theorem crcShiftN_lt (w p n s : Nat) (hs : s < 2^w) : (crcShift w p)^[n] s < 2^w := by
  induction n generalizing s with
  | zero => simpa using hs
  | succ k ih =>
    rw [Function.iterate_succ_apply]
    exact ih _ (crcShift_lt w p s)

theorem crcShiftN_inj (w p n : Nat) (hw : 1 ≤ w) (hp : p < 2^w) (hodd : p % 2 = 1)
    {s1 s2 : Nat} (h1 : s1 < 2^w) (h2 : s2 < 2^w)
    (he : (crcShift w p)^[n] s1 = (crcShift w p)^[n] s2) : s1 = s2 := by
  induction n generalizing s1 s2 with
  | zero => simpa using he
  | succ k ih =>
    rw [Function.iterate_succ_apply, Function.iterate_succ_apply] at he
    exact crcShift_inj w p hw hp hodd h1 h2
      (ih (crcShift_lt w p s1) (crcShift_lt w p s2) he)

theorem crcFold_lt (w p sh init : Nat) (data : List Nat) (hinit : init < 2^w)
    (hdata : ∀ b ∈ data, b * 2^sh < 2^w) : crcFold w p sh init data < 2^w := by
  induction data generalizing init with
  | nil => simpa [crcFold] using hinit
  | cons b bs ih =>
    rw [crcFold, List.foldl_cons]
    exact ih _
      (crcShiftN_lt w p 8 _
        (Nat.xor_lt_two_pow hinit (hdata b (by simp))))
      (fun c hc => hdata c (by simp [hc]))

theorem crcFold_ne_of_ne (w p sh : Nat) (data : List Nat) (hw : 1 ≤ w)
    (hp : p < 2^w) (hodd : p % 2 = 1)
    (hdata : ∀ b ∈ data, b * 2^sh < 2^w) {c1 c2 : Nat}
    (h1 : c1 < 2^w) (h2 : c2 < 2^w) (hne : c1 ≠ c2) :
    crcFold w p sh c1 data ≠ crcFold w p sh c2 data := by
  induction data generalizing c1 c2 with
  | nil => simpa [crcFold] using hne
  | cons b bs ih =>
    rw [crcFold, List.foldl_cons, crcFold, List.foldl_cons]
    have hb : b * 2^sh < 2^w := hdata b (by simp)
    have hx1 : c1 ^^^ b * 2^sh < 2^w := Nat.xor_lt_two_pow h1 hb
    have hx2 : c2 ^^^ b * 2^sh < 2^w := Nat.xor_lt_two_pow h2 hb
    refine ih (fun c hc => hdata c (by simp [hc]))
      (crcShiftN_lt w p 8 _ hx1) (crcShiftN_lt w p 8 _ hx2) ?_
    intro he
    have h' : c1 ^^^ b * 2^sh = c2 ^^^ b * 2^sh :=
      crcShiftN_inj w p 8 hw hp hodd hx1 hx2 he
    have h'' := congrArg (fun t => t ^^^ b * 2^sh) h'
    simp only [Nat.xor_cancel_right] at h''
    exact hne h''

/-- Changing the byte at any single position changes the CRC state. -/
theorem crcFold_single_diff (w p sh init : Nat) (pre post : List Nat) (b1 b2 : Nat)
    (hw : 1 ≤ w) (hp : p < 2^w) (hodd : p % 2 = 1) (hinit : init < 2^w)
    (hpre : ∀ b ∈ pre, b * 2^sh < 2^w) (hpost : ∀ b ∈ post, b * 2^sh < 2^w)
    (hb1 : b1 * 2^sh < 2^w) (hb2 : b2 * 2^sh < 2^w) (hne : b1 * 2^sh ≠ b2 * 2^sh) :
    crcFold w p sh init (pre ++ b1 :: post) ≠ crcFold w p sh init (pre ++ b2 :: post) := by
  have hfold : ∀ t : List Nat, crcFold w p sh init (pre ++ t) =
      crcFold w p sh (crcFold w p sh init pre) t := by
    intro t
    unfold crcFold
    exact List.foldl_append _ _ _ _
  rw [hfold, hfold]
  set c := crcFold w p sh init pre with hc
  have hcw : c < 2^w := crcFold_lt w p sh init pre hinit hpre
  rw [crcFold, List.foldl_cons, crcFold, List.foldl_cons]
  have hx1 : c ^^^ b1 * 2^sh < 2^w := Nat.xor_lt_two_pow hcw hb1
  have hx2 : c ^^^ b2 * 2^sh < 2^w := Nat.xor_lt_two_pow hcw hb2
  refine crcFold_ne_of_ne w p sh post hw hp hodd hpost
    (crcShiftN_lt w p 8 _ hx1) (crcShiftN_lt w p 8 _ hx2) ?_
  intro he
  exact hne (xor_left_cancel (crcShiftN_inj w p 8 hw hp hodd hx1 hx2 he))

theorem calculate_crc8_eq_fold (data : List Nat) :
    calculate_crc8_sae_j1850 data = crcFold 8 0x1D 0 0xFF data := by
  unfold calculate_crc8_sae_j1850 crcFold
  congr 1
  funext crc byte
  rw [pow_zero, Nat.mul_one]

theorem calculate_crc16_eq_fold (data : List Nat) :
    calculate_crc16_itu_x25 data = crcFold 16 0x1021 8 0xFFFF data := rfl

/-! ### Equivalence of the table-driven CRC-32 with the bit-loop fold -/

theorem crcShift_distrib_xor (w p x y : Nat) (hp : p < 2^w) :
    crcShift w p (x ^^^ y) = crcShift w p x ^^^ crcShift w p y := by
  rw [crcShift_eq w p _ hp, crcShift_eq w p _ hp, crcShift_eq w p _ hp,
    Nat.testBit_xor, bool_cond_xor, two_mul_distrib_xor, mod_two_pow_distrib_xor]
  generalize (2 * x) % 2^w = a
  generalize (2 * y) % 2^w = b
  generalize (if x.testBit (w-1) = true then p else 0) = u
  generalize (if y.testBit (w-1) = true then p else 0) = v
  rw [Nat.xor_assoc, Nat.xor_assoc]
  congr 1
  rw [← Nat.xor_assoc, ← Nat.xor_assoc, Nat.xor_comm u b]

theorem crcShiftN_distrib_xor (w p n x y : Nat) (hp : p < 2^w) :
    (crcShift w p)^[n] (x ^^^ y) = (crcShift w p)^[n] x ^^^ (crcShift w p)^[n] y := by
  induction n generalizing x y with
  | zero => simp
  | succ k ih =>
    rw [Function.iterate_succ_apply, Function.iterate_succ_apply,
      Function.iterate_succ_apply, crcShift_distrib_xor w p x y hp, ih]

theorem crcShiftN_low (w p n r : Nat) (hw : 1 ≤ w) (hr : r * 2^n < 2^w) :
    (crcShift w p)^[n] r = r * 2^n := by
  induction n generalizing r with
  | zero => simp
  | succ k ih =>
    have hw2 : 2^w = 2^(w-1) * 2 := by
      conv_lhs => rw [← Nat.sub_add_cancel hw]
      rw [pow_succ]
    have h2r : 2 * r < 2^w := by
      have h1 : (1:Nat) ≤ 2^k := Nat.one_le_two_pow
      calc 2 * r ≤ r * 2^(k+1) := by rw [pow_succ]; nlinarith
        _ < 2^w := hr
    have htb : r.testBit (w-1) = false := by
      apply Nat.testBit_lt_two_pow
      omega
    rw [Function.iterate_succ_apply]
    have hstep : crcShift w p r = 2 * r := by
      unfold crcShift
      rw [if_neg (by simp [htb])]
      exact Nat.mod_eq_of_lt h2r
    rw [hstep, ih (2 * r) (by rw [pow_succ] at hr; nlinarith)]
    ring

theorem crc32_step_eq (c b : Nat) (hc : c < 2^32) (hb : b < 256) :
    (c * 2^8 % 2^32) ^^^ crc32_table ((c / 2^24 ^^^ b) % 256)
      = (crcShift 32 0x04C11DB7)^[8] (c ^^^ b * 2^24) := by
  have hp : (0x04C11DB7 : Nat) < 2^32 := by norm_num
  have hhi : c / 2^24 < 256 := by omega
  have hidx : c / 2^24 ^^^ b < 256 := Nat.xor_lt_two_pow (n := 8) hhi hb
  have hidx' : (c / 2^24 ^^^ b) % 256 = c / 2^24 ^^^ b := Nat.mod_eq_of_lt hidx
  have htab : crc32_table (c / 2^24 ^^^ b) =
      (crcShift 32 0x04C11DB7)^[8] ((c / 2^24 ^^^ b) * 2^24) := by
    unfold crc32_table
    rw [Nat.mod_eq_of_lt (by nlinarith)]
  have hdecomp : c ^^^ b * 2^24 = ((c / 2^24 ^^^ b) * 2^24) ^^^ c % 2^24 := by
    conv_lhs => rw [← div_mod_two_pow_xor c 24]
    rw [mul_pow_distrib_xor]
    rw [Nat.xor_assoc, Nat.xor_assoc]
    congr 1
    rw [Nat.xor_comm]
  rw [hdecomp, crcShiftN_distrib_xor 32 0x04C11DB7 8 _ _ hp,
    crcShiftN_low 32 0x04C11DB7 8 (c % 2^24) (by omega) (by omega),
    hidx', htab]
  have hlow : c * 2^8 % 2^32 = c % 2^24 * 2^8 := by omega
  rw [hlow, Nat.xor_comm]

theorem calculate_crc32_eq_fold (data : List Nat) (hd : ∀ b ∈ data, b < 256) :
    calculate_crc32 data = crcFold 32 0x04C11DB7 24 0xFFFFFFFF data := by
  have main : ∀ (l : List Nat) (c : Nat), c < 2^32 → (∀ b ∈ l, b < 256) →
      l.foldl
        (fun crc byte => (crc * 2^8 % 2^32) ^^^ crc32_table ((crc / 2^24 ^^^ byte) % 256))
        c = crcFold 32 0x04C11DB7 24 c l := by
    intro l
    induction l with
    | nil => intro c _ _; simp [crcFold]
    | cons b bs ih =>
      intro c hc hl
      rw [List.foldl_cons, crcFold, List.foldl_cons]
      have hb : b < 256 := hl b (by simp)
      rw [crc32_step_eq c b hc hb]
      exact ih _ (crcShiftN_lt 32 0x04C11DB7 8 _
          (Nat.xor_lt_two_pow hc (by nlinarith)))
        (fun x hx => hl x (by simp [hx]))
  exact main data 0xFFFFFFFF (by norm_num) hd

theorem bytes_append_cons_lt {pre post : List Nat} {b : Nat}
    (hpre : ∀ x ∈ pre, x < 256) (hpost : ∀ x ∈ post, x < 256) (hb : b < 256) :
    ∀ x ∈ pre ++ b :: post, x < 256 := by
  intro x hx
  rcases List.mem_append.1 hx with h | h
  · exact hpre x h
  · rcases List.mem_cons.1 h with h | h
    · omega
    · exact hpost x h

/-- Changing one byte changes the masked value of each of the three CRCs. -/
theorem calculate_crc_single_diff (ct : Nat) (pre post : List Nat) (b1 b2 : Nat)
    (hct : ct < 3) (hpre : ∀ x ∈ pre, x < 256) (hpost : ∀ x ∈ post, x < 256)
    (hb1 : b1 < 256) (hb2 : b2 < 256) (hne : b1 ≠ b2) :
    maskCrc ct (calculate_crc (pre ++ b1 :: post) 0 (pre ++ b1 :: post).length ct) ≠
      maskCrc ct (calculate_crc (pre ++ b2 :: post) 0 (pre ++ b2 :: post).length ct) := by
  have hslice : ∀ l : List Nat, (l.drop 0).take l.length = l := by
    intro l
    rw [List.drop_zero, List.take_length]
  have hb1' : ∀ x ∈ pre ++ b1 :: post, x < 256 := bytes_append_cons_lt hpre hpost hb1
  have hb2' : ∀ x ∈ pre ++ b2 :: post, x < 256 := bytes_append_cons_lt hpre hpost hb2
  interval_cases ct
  · rw [calculate_crc, if_neg (by omega), calculate_crc, if_neg (by omega),
      hslice, hslice, calculate_crc8_eq_fold, calculate_crc8_eq_fold]
    have h1 : crcFold 8 0x1D 0 0xFF (pre ++ b1 :: post) < 2^8 :=
      crcFold_lt _ _ _ _ _ (by norm_num) (fun x hx => by simpa using hb1' x hx)
    have h2 : crcFold 8 0x1D 0 0xFF (pre ++ b2 :: post) < 2^8 :=
      crcFold_lt _ _ _ _ _ (by norm_num) (fun x hx => by simpa using hb2' x hx)
    rw [maskCrc, if_pos rfl, maskCrc, if_pos rfl,
      Nat.mod_eq_of_lt h1, Nat.mod_eq_of_lt h2]
    exact crcFold_single_diff 8 0x1D 0 0xFF pre post b1 b2 (by norm_num) (by norm_num)
      (by norm_num) (by norm_num) (fun x hx => by simpa using hpre x hx)
      (fun x hx => by simpa using hpost x hx) (by simpa using hb1) (by simpa using hb2)
      (by simpa using hne)
  · rw [calculate_crc, if_neg (by omega), calculate_crc, if_neg (by omega),
      hslice, hslice, calculate_crc16_eq_fold, calculate_crc16_eq_fold]
    have h1 : crcFold 16 0x1021 8 0xFFFF (pre ++ b1 :: post) < 2^16 :=
      crcFold_lt _ _ _ _ _ (by norm_num) (fun x hx => by have := hb1' x hx; omega)
    have h2 : crcFold 16 0x1021 8 0xFFFF (pre ++ b2 :: post) < 2^16 :=
      crcFold_lt _ _ _ _ _ (by norm_num) (fun x hx => by have := hb2' x hx; omega)
    rw [maskCrc, if_neg (by omega), if_pos rfl, maskCrc, if_neg (by omega), if_pos rfl,
      Nat.mod_eq_of_lt h1, Nat.mod_eq_of_lt h2]
    exact crcFold_single_diff 16 0x1021 8 0xFFFF pre post b1 b2 (by norm_num) (by norm_num)
      (by norm_num) (by norm_num) (fun x hx => by have := hpre x hx; omega)
      (fun x hx => by have := hpost x hx; omega) (by omega) (by omega) (by omega)
  · rw [calculate_crc, if_neg (by omega), calculate_crc, if_neg (by omega),
      hslice, hslice, calculate_crc32_eq_fold _ hb1', calculate_crc32_eq_fold _ hb2']
    rw [maskCrc, if_neg (by omega), if_neg (by omega), maskCrc, if_neg (by omega),
      if_neg (by omega)]
    exact crcFold_single_diff 32 0x04C11DB7 24 0xFFFFFFFF pre post b1 b2 (by norm_num)
      (by norm_num) (by norm_num) (by norm_num)
      (fun x hx => by have := hpre x hx; omega)
      (fun x hx => by have := hpost x hx; omega) (by omega) (by omega) (by omega)

end E2ECRC

end e2e

/-! ## Claim C7 -/

/-- C7: `crc8_sae_j1850` of the empty sequence is 0xFF, `crc16_ccitt_x25` of
the empty sequence is 0xFFFF, and flipping any single bit of any byte
sequence changes the CRC-16 value. -/
theorem C7_crc_empty_and_bitflip :
    e2e.E2ECRC.calculate_crc8_sae_j1850 [] = 0xFF ∧
    e2e.E2ECRC.calculate_crc16_itu_x25 [] = 0xFFFF ∧
    ∀ (pre post : List Nat) (x k : Nat),
      (∀ b ∈ pre, b < 256) → (∀ b ∈ post, b < 256) → x < 256 → k < 8 →
      e2e.E2ECRC.calculate_crc16_itu_x25 (pre ++ (x ^^^ 2^k) :: post) ≠
        e2e.E2ECRC.calculate_crc16_itu_x25 (pre ++ x :: post) := by
  refine ⟨rfl, rfl, ?_⟩
  intro pre post x k hpre hpost hx hk
  rw [e2e.E2ECRC.calculate_crc16_eq_fold, e2e.E2ECRC.calculate_crc16_eq_fold]
  have hxk : x ^^^ 2^k < 256 := by
    have h2k : 2^k < 2^8 := by
      have : (2:Nat)^k ≤ 2^7 := Nat.pow_le_pow_right (by omega) (by omega)
      omega
    exact Nat.xor_lt_two_pow (n := 8) hx h2k
  have hne : x ^^^ 2^k ≠ x := by
    intro he
    have h0 : x ^^^ 2^k = x ^^^ 0 := by rw [Nat.xor_zero]; exact he
    have := xor_left_cancel h0
    have h2k : 0 < 2^k := Nat.pos_pow_of_pos _ (by omega)
    omega
  exact e2e.E2ECRC.crcFold_single_diff 16 0x1021 8 0xFFFF pre post (x ^^^ 2^k) x
    (by norm_num) (by norm_num) (by norm_num) (by norm_num)
    (fun b hb => by have := hpre b hb; omega)
    (fun b hb => by have := hpost b hb; omega)
    (by omega) (by omega) (by omega)

/-- Witness for C7 at a concrete input: flipping bit 0 of the single byte 0
changes the CRC-16. -/
theorem C7_crc_witness :
    e2e.E2ECRC.calculate_crc8_sae_j1850 [] = 0xFF ∧
    e2e.E2ECRC.calculate_crc16_itu_x25 [] = 0xFFFF ∧
    e2e.E2ECRC.calculate_crc16_itu_x25 [1] ≠ e2e.E2ECRC.calculate_crc16_itu_x25 [0] := by
  refine ⟨C7_crc_empty_and_bitflip.1, C7_crc_empty_and_bitflip.2.1, ?_⟩
  have h := C7_crc_empty_and_bitflip.2.2 [] [] 0 0
    (by simp) (by simp) (by norm_num) (by norm_num)
  simpa using h

/-! ## Claim C3 -/

namespace e2e

theorem validateCrcData_set_e2e (m : Message) (h : E2EHeader) :
    validateCrcData (m.set_e2e_header h) = protectCrcData m := by
  simp [validateCrcData, protectCrcData, Message.set_e2e_header, Message.update_length,
    Message.e2e_size, Message.message_id_u32, Message.request_id_u32,
    E2EHeader.get_header_size]

theorem protect_snd_message (st : ProfileState) (m : Message) (cfg : E2EConfig) (now : Nat) :
    (protect st m cfg now).2.1 =
      m.set_e2e_header
        ⟨(protect st m cfg now).2.1.e2e_header.elim 0 E2EHeader.crc,
          (protect st m cfg now).2.1.e2e_header.elim 0 E2EHeader.counter,
          cfg.data_id,
          (protect st m cfg now).2.1.e2e_header.elim 0 E2EHeader.freshness_value⟩ := by
  simp [protect, Message.set_e2e_header, Message.update_length, Message.e2e_size]

end e2e

set_option maxRecDepth 8192 in
/-- Counterexample to C3 as stated: (i) with all three protections enabled
and the default configuration, a stored counter at 0xFFFFFFFF makes
`validate (protect m)` return INVALID_ARGUMENT rather than Success (the
`uint32_t` counter increment wraps to 0, which no validation branch
accepts); (ii) with all three protections enabled and `crc_type = 3`, the
CRC dispatch returns 0 for every buffer, so mutating a payload byte between
protect and validate still yields Success rather than InvalidArgument. -/
theorem C3_counterexample :
    exCfg.enable_crc = true ∧ exCfg.enable_counter = true ∧
    exCfg.enable_freshness = true ∧
    (e2e.validate (e2e.protect exStateMax exMessage exCfg 0).2.2
      (e2e.protect exStateMax exMessage exCfg 0).2.1 exCfg 0).1 = Result.INVALID_ARGUMENT ∧
    exCfgBadCrcType.enable_crc = true ∧ exCfgBadCrcType.enable_counter = true ∧
    exCfgBadCrcType.enable_freshness = true ∧
    (e2e.validate (e2e.protect e2e.initialProfileState exMessage exCfgBadCrcType 0).2.2
      (Message.mutatePayloadByte
        (e2e.protect e2e.initialProfileState exMessage exCfgBadCrcType 0).2.1 0 255)
      exCfgBadCrcType 0).1 = Result.SUCCESS := by
  refine ⟨rfl, rfl, rfl, by decide, rfl, rfl, rfl, by decide⟩

/-- C3 (amended): for every message and every configuration with
`enable_crc`, `enable_counter` and `enable_freshness` all set, a known crc
type (0, 1 or 2), and the stored counter for the data id not at the
`uint32_t` wrap point, validating a freshly protected message at the protect
time returns Success, and mutating any single payload byte between protect
and validate makes validate return InvalidArgument. -/
theorem C3_protect_validate_roundtrip (st : e2e.ProfileState) (m : Message)
    (cfg : e2e.E2EConfig) (now : Nat)
    (hcrc : cfg.enable_crc = true) (hctr : cfg.enable_counter = true)
    (hfr : cfg.enable_freshness = true) (hct : cfg.crc_type < 3)
    (hst : st.counters cfg.data_id + 1 < 2^32)
    (hpl : ∀ b ∈ m.payload, b < 256)
    (hpv : m.protocol_version < 256) (hiv : m.interface_version < 256)
    (hmt : m.message_type < 256) (hrc : m.return_code < 256) :
    (e2e.validate (e2e.protect st m cfg now).2.2 (e2e.protect st m cfg now).2.1 cfg now).1
      = Result.SUCCESS ∧
    ∀ i b, i < m.payload.length → b < 256 → b ≠ m.payload.getD i 0 →
      (e2e.validate (e2e.protect st m cfg now).2.2
        (Message.mutatePayloadByte (e2e.protect st m cfg now).2.1 i b) cfg now).1
        = Result.INVALID_ARGUMENT := by
  have hcd := e2e.protectCrcData m
  set c := st.counters cfg.data_id with hc
  set l1 := (c + 1) % 2^32 with hl1
  set l2 := if cfg.max_counter_value < l1 then 1 else l1 with hl2
  have hl1v : l1 = c + 1 := Nat.mod_eq_of_lt hst
  have hl2pos : 1 ≤ l2 := by
    rw [hl2]
    split
    · omega
    · omega
  set crcv := e2e.E2ECRC.calculate_crc (e2e.protectCrcData m) 0
    (e2e.protectCrcData m).length cfg.crc_type with hcrcv
  set hdr : e2e.E2EHeader := ⟨crcv, l2, cfg.data_id, now % 2^16⟩ with hhdr
  have hP : e2e.protect st m cfg now =
      (Result.SUCCESS, m.set_e2e_header hdr,
        ⟨fun d => if d = cfg.data_id then l2 else st.counters d,
          fun d => if d = cfg.data_id then now % 2^16 else st.freshness_values d⟩) := by
    rw [e2e.protect]
    simp only [hcrc, hctr, hfr, if_true, ite_true]
  have hhdrP : (m.set_e2e_header hdr).e2e_header = some hdr := by
    simp [Message.set_e2e_header, Message.update_length]
  have hvd : e2e.validateCrcData (m.set_e2e_header hdr) = e2e.protectCrcData m :=
    e2e.validateCrcData_set_e2e m hdr
  have hcv : e2e.counterValid cfg l2 l2 = true := by
    rw [e2e.counterValid]
    rw [if_neg (by omega), if_pos rfl]
  have hfs : e2e.freshnessStale cfg (now % 65536) now = false := by
    rw [e2e.freshnessStale]
    simp
  constructor
  · rw [hP]
    rw [e2e.validate]
    simp only [hhdrP]
    rw [if_neg (by simp)]
    rw [if_neg (by
      rw [hvd, ← hcrcv]
      simp)]
    rw [if_pos hctr]
    rw [if_neg (by simp [hcv])]
    rw [if_neg (by simp [hfs])]
  · intro i b hi hb hbne
    have hmut : Message.mutatePayloadByte (m.set_e2e_header hdr) i b =
        { m.set_e2e_header hdr with payload := m.payload.set i b } := by
      simp [Message.mutatePayloadByte, Message.set_e2e_header, Message.update_length]
    have hmut_hdr : (Message.mutatePayloadByte (m.set_e2e_header hdr) i b).e2e_header
        = some hdr := by
      simp [Message.mutatePayloadByte, Message.set_e2e_header, Message.update_length]
    have hvd2 : e2e.validateCrcData (Message.mutatePayloadByte (m.set_e2e_header hdr) i b) =
        (be32 m.message_id_u32 ++
          be32 ((8 + e2e.E2EHeader.get_header_size + m.payload.length) % 2^32) ++
          be32 m.request_id_u32 ++
          [m.protocol_version, m.interface_version, m.message_type, m.return_code]) ++
          m.payload.set i b := by
      rw [hmut]
      simp [e2e.validateCrcData, Message.set_e2e_header, Message.update_length,
        Message.e2e_size, Message.message_id_u32, Message.request_id_u32,
        List.length_set, List.append_assoc]
    have hpd : e2e.protectCrcData m =
        (be32 m.message_id_u32 ++
          be32 ((8 + e2e.E2EHeader.get_header_size + m.payload.length) % 2^32) ++
          be32 m.request_id_u32 ++
          [m.protocol_version, m.interface_version, m.message_type, m.return_code]) ++
          m.payload := by
      simp [e2e.protectCrcData, List.append_assoc]
    -- split the payload at position i
    have hsplit : m.payload =
        m.payload.take i ++ m.payload.getD i 0 :: m.payload.drop (i+1) := by
      conv_lhs => rw [← List.take_append_drop i m.payload]
      rw [List.drop_eq_getElem_cons hi, List.getD_eq_getElem m.payload 0 hi]
    have hset : m.payload.set i b = m.payload.take i ++ b :: m.payload.drop (i+1) :=
      List.set_eq_take_cons_drop b hi
    set hdr16 := be32 m.message_id_u32 ++
        be32 ((8 + e2e.E2EHeader.get_header_size + m.payload.length) % 2^32) ++
        be32 m.request_id_u32 ++
        [m.protocol_version, m.interface_version, m.message_type, m.return_code] with hh16
    have hpre_lt : ∀ x ∈ hdr16 ++ m.payload.take i, x < 256 := by
      intro x hx
      rcases List.mem_append.1 hx with hx | hx
      · rw [hh16] at hx
        rcases List.mem_append.1 hx with hx | hx
        · rcases List.mem_append.1 hx with hx | hx
          · rcases List.mem_append.1 hx with hx | hx
            · exact be32_bytes_lt _ x hx
            · exact be32_bytes_lt _ x hx
          · exact be32_bytes_lt _ x hx
        · simp only [List.mem_cons, List.not_mem_nil, or_false] at hx
          rcases hx with h | h | h | h <;> omega
      · exact hpl x (List.take_subset i m.payload hx)
    have hpost_lt : ∀ x ∈ m.payload.drop (i+1), x < 256 :=
      fun x hx => hpl x (List.drop_subset (i+1) m.payload hx)
    have hb1_lt : m.payload.getD i 0 < 256 := by
      rw [List.getD_eq_getElem m.payload 0 hi]
      exact hpl _ (List.getElem_mem hi)
    have hcrcdiff :
        e2e.maskCrc cfg.crc_type crcv ≠
        e2e.maskCrc cfg.crc_type
          (e2e.E2ECRC.calculate_crc
            (e2e.validateCrcData (Message.mutatePayloadByte (m.set_e2e_header hdr) i b)) 0
            (e2e.validateCrcData (Message.mutatePayloadByte (m.set_e2e_header hdr) i b)).length
            cfg.crc_type) := by
      rw [hvd2, hset]
      rw [hcrcv, hpd]
      conv_lhs => rw [hsplit]
      rw [← List.append_assoc, ← List.append_assoc]
      exact e2e.E2ECRC.calculate_crc_single_diff cfg.crc_type
        (hdr16 ++ m.payload.take i) (m.payload.drop (i+1))
        (m.payload.getD i 0) b hct hpre_lt hpost_lt hb1_lt hb (fun he => hbne he.symm)
    rw [hP]
    rw [e2e.validate]
    simp only [hmut_hdr]
    rw [if_neg (by simp)]
    rw [if_pos ⟨hcrc, hcrcdiff⟩]

/-- Witness for C3 at a concrete input: protecting `exMessage` under the
all-enabled 16-bit-CRC configuration validates successfully, and mutating
payload byte 0 afterwards yields INVALID_ARGUMENT. -/
theorem C3_witness :
    (e2e.validate (e2e.protect e2e.initialProfileState exMessage exCfg 5000).2.2
      (e2e.protect e2e.initialProfileState exMessage exCfg 5000).2.1 exCfg 5000).1
      = Result.SUCCESS ∧
    (e2e.validate (e2e.protect e2e.initialProfileState exMessage exCfg 5000).2.2
      (Message.mutatePayloadByte
        (e2e.protect e2e.initialProfileState exMessage exCfg 5000).2.1 0 255)
      exCfg 5000).1 = Result.INVALID_ARGUMENT := by
  have h := C3_protect_validate_roundtrip e2e.initialProfileState exMessage exCfg 5000
    rfl rfl rfl (by decide) (by decide) (by decide) (by decide) (by decide) (by decide)
    (by decide)
  exact ⟨h.1, h.2 0 255 (by decide) (by decide) (by decide)⟩

/-! ## Claim C5 -/

theorem protect_counter (st : e2e.ProfileState) (m : Message) (cfg : e2e.E2EConfig)
    (now : Nat) (hen : cfg.enable_counter = true) :
    (e2e.protect st m cfg now).2.1.e2e_header.elim 0 e2e.E2EHeader.counter =
      (if cfg.max_counter_value < (st.counters cfg.data_id + 1) % 2^32 then 1
       else (st.counters cfg.data_id + 1) % 2^32) ∧
    (e2e.protect st m cfg now).2.2.counters cfg.data_id =
      (if cfg.max_counter_value < (st.counters cfg.data_id + 1) % 2^32 then 1
       else (st.counters cfg.data_id + 1) % 2^32) := by
  rw [e2e.protect]
  simp [hen, Message.set_e2e_header, Message.update_length]

/-- Counterexample to C5 as stated: with `max_counter_value = 0xFFFFFFFF`
and the stored counter one step below it, the first protect places the
counter 0xFFFFFFFF (= max) and the second places 0, not 1: the `uint32_t`
increment wraps to 0 and the `> max` rollover test never fires. -/
theorem C5_counterexample :
    exCfgCounter.max_counter_value = 0xFFFFFFFF ∧
    (e2e.protect exStatePreMax exMessage exCfgCounter 0).2.1.e2e_header.elim 0
      e2e.E2EHeader.counter = 0xFFFFFFFF ∧
    (e2e.protect (e2e.protect exStatePreMax exMessage exCfgCounter 0).2.2
      (e2e.protect exStatePreMax exMessage exCfgCounter 0).2.1
      exCfgCounter 0).2.1.e2e_header.elim 0 e2e.E2EHeader.counter = 0 := by
  refine ⟨rfl, by decide, by decide⟩

/-- C5 (amended): for two successive protects with the same data id and
configuration, with the counter enabled and `0 < max_counter_value < 2^32`,
the second counter equals the first plus one unless the first equals
`max_counter_value`; in that case the second is 1 when
`max_counter_value < 0xFFFFFFFF` and 0 when `max_counter_value = 0xFFFFFFFF`
(the `uint32_t` increment wraps). -/
theorem C5_counter_sequence (st : e2e.ProfileState) (m : Message)
    (cfg : e2e.E2EConfig) (now now' : Nat)
    (hen : cfg.enable_counter = true) (hmax : 0 < cfg.max_counter_value)
    (hmaxwf : cfg.max_counter_value < 2^32) :
    (e2e.protect (e2e.protect st m cfg now).2.2 (e2e.protect st m cfg now).2.1
        cfg now').2.1.e2e_header.elim 0 e2e.E2EHeader.counter =
      if (e2e.protect st m cfg now).2.1.e2e_header.elim 0 e2e.E2EHeader.counter
          = cfg.max_counter_value then
        (if cfg.max_counter_value = 2^32 - 1 then 0 else 1)
      else
        (e2e.protect st m cfg now).2.1.e2e_header.elim 0 e2e.E2EHeader.counter + 1 := by
  obtain ⟨ha1, ha2⟩ := protect_counter st m cfg now hen
  obtain ⟨hb1, hb2⟩ :=
    protect_counter (e2e.protect st m cfg now).2.2 (e2e.protect st m cfg now).2.1
      cfg now' hen
  rw [hb1, ha2, ha1]
  split_ifs <;> omega

/-- Witness for C5 at a concrete input: from a fresh state the first two
counters under `exCfgCounter` are 1 and 2. -/
theorem C5_witness :
    (e2e.protect (e2e.protect e2e.initialProfileState exMessage exCfgCounter 3).2.2
        (e2e.protect e2e.initialProfileState exMessage exCfgCounter 3).2.1
        exCfgCounter 4).2.1.e2e_header.elim 0 e2e.E2EHeader.counter =
      if (e2e.protect e2e.initialProfileState exMessage exCfgCounter 3).2.1.e2e_header.elim 0
          e2e.E2EHeader.counter = exCfgCounter.max_counter_value then
        (if exCfgCounter.max_counter_value = 2^32 - 1 then 0 else 1)
      else
        (e2e.protect e2e.initialProfileState exMessage exCfgCounter 3).2.1.e2e_header.elim 0
          e2e.E2EHeader.counter + 1 :=
  C5_counter_sequence e2e.initialProfileState exMessage exCfgCounter 3 4 rfl
    (by decide) (by decide)

/-! ## Claim C9 -/

theorem protect_fst_success (st : e2e.ProfileState) (m : Message) (cfg : e2e.E2EConfig)
    (now : Nat) : (e2e.protect st m cfg now).1 = Result.SUCCESS := rfl

theorem validate_fst_ne_not_initialized (st : e2e.ProfileState) (m : Message)
    (cfg : e2e.E2EConfig) (now : Nat) :
    (e2e.validate st m cfg now).1 ≠ Result.NOT_INITIALIZED := by
  rw [e2e.validate]
  cases m.e2e_header with
  | none => simp
  | some hdr =>
    dsimp only
    split_ifs <;> simp

/-- C9: when neither the profile id nor the profile name of the
configuration resolves to a registered profile, `E2EProtection::protect` and
`E2EProtection::validate` fall back to the profile registered under id 0,
and they return NOT_INITIALIZED exactly when no profile is registered under
id 0. -/
theorem C9_profile_fallback (r : e2e.E2ERegistry) (env : Nat → e2e.ProfileState)
    (m : Message) (cfg : e2e.E2EConfig) (now : Nat)
    (hid : r.by_id cfg.profile_id = none) (hname : r.by_name cfg.profile_name = none) :
    e2e.resolveProfile r cfg = r.by_id 0 ∧
    ((e2e.E2EProtection_protect r env m cfg now).1 = Result.NOT_INITIALIZED ↔
      r.by_id 0 = none) ∧
    ((e2e.E2EProtection_validate r env m cfg now).1 = Result.NOT_INITIALIZED ↔
      r.by_id 0 = none) := by
  have hres : e2e.resolveProfile r cfg = r.by_id 0 := by
    rw [e2e.resolveProfile, hid, hname, e2e.get_default_profile]
  refine ⟨hres, ?_, ?_⟩
  · rw [e2e.E2EProtection_protect, hres]
    cases h0 : r.by_id 0 with
    | none => simp
    | some p => simp [protect_fst_success]
  · rw [e2e.E2EProtection_validate, hres]
    cases h0 : r.by_id 0 with
    | none => simp
    | some p => simp [validate_fst_ne_not_initialized]

/-- Witness for C9 at a concrete input: a registry with only a default
profile (handle 5 under id 0), queried with an unknown id and name. -/
theorem C9_witness :
    e2e.resolveProfile
        ⟨fun i => if i = 0 then some 5 else none, fun _ => none⟩
        { profile_id := 9, profile_name := "nope" } =
      (fun i => if i = 0 then some 5 else none) 0 ∧
    ((e2e.E2EProtection_protect
        ⟨fun i => if i = 0 then some 5 else none, fun _ => none⟩
        (fun _ => e2e.initialProfileState) exMessage
        { profile_id := 9, profile_name := "nope" } 0).1 = Result.NOT_INITIALIZED ↔
      (fun i : Nat => if i = 0 then some 5 else none) 0 = none) ∧
    ((e2e.E2EProtection_validate
        ⟨fun i => if i = 0 then some 5 else none, fun _ => none⟩
        (fun _ => e2e.initialProfileState) exMessage
        { profile_id := 9, profile_name := "nope" } 0).1 = Result.NOT_INITIALIZED ↔
      (fun i : Nat => if i = 0 then some 5 else none) 0 = none) :=
  C9_profile_fallback
    ⟨fun i => if i = 0 then some 5 else none, fun _ => none⟩
    (fun _ => e2e.initialProfileState) exMessage
    { profile_id := 9, profile_name := "nope" } 0 rfl rfl

/-! ## Claim C8 -/

/-- Counterexample to C8 as stated: serializing the IPv4 endpoint option for
192.168.1.100, port 30509, protocol 0x11 does not yield
`00 08 04 00 C0 A8 01 64 00 11 77 2D`.  The option stores the address in
network byte order but shifts it out as a host (little-endian) `uint32_t`,
reversing the four octets, and pushes the `htons`-swapped port through a
second big-endian split, swapping the port bytes (the repository's own unit
test `IPv4EndpointOptionSerialization` asserts the swapped image). -/
theorem C8_counterexample :
    sd.serializeIPv4EndpointOption (sd.ipv4_from_octets 192 168 1 100) 0x11 30509 ≠
      [0x00, 0x08, 0x04, 0x00, 0xC0, 0xA8, 0x01, 0x64, 0x00, 0x11, 0x77, 0x2D] := by
  decide

/-- C8 (amended): on the little-endian host the code and its unit test
assume, serializing the IPv4 endpoint option for address 192.168.1.100,
port 30509, protocol 0x11 yields exactly the 12 bytes
`00 08 04 00 64 01 A8 C0 00 11 2D 77`: the wire image is
`{length = 8 (u16), type = 0x04, reserved, the four address octets reversed,
reserved, protocol, the port byte-swapped}`. -/
theorem C8_endpoint_option_serialization :
    sd.serializeIPv4EndpointOption (sd.ipv4_from_octets 192 168 1 100) 0x11 30509 =
      [0x00, 0x08, 0x04, 0x00, 0x64, 0x01, 0xA8, 0xC0, 0x00, 0x11, 0x2D, 0x77] := by
  decide

/-! ## Claim C2 -/

set_option maxRecDepth 16384 in
/-- C2 evaluated at a failing input (code bug): a TP-eligible 64-byte
payload with `max_segment_size = 40`, `max_message_size = 10000` segments
into three segments, but the LAST segment always fails
`TpReassembler::validate_segment` — the segmenter counts the 4 TP-header
bytes it embeds in the segment payload into `segment_length`, so
`segment_offset + segment_length = payload_len + 4 > message_length` — and
feeding every produced segment to the reassembler (here in order; no order
can help, since the rejection is per-segment) completes nothing: the claim
expects the original payload back. -/
theorem C2_segments_not_reassemblable :
    (tp.segment_message ⟨40, 10000⟩ 0
      { exMessage with payload := List.replicate 64 0xCC }).1 = tp.TpResult.SUCCESS ∧
    (tp.segment_message ⟨40, 10000⟩ 0
      { exMessage with payload := List.replicate 64 0xCC }).2.1.length = 3 ∧
    tp.validate_segment ⟨40, 10000⟩
      ((tp.segment_message ⟨40, 10000⟩ 0
        { exMessage with payload := List.replicate 64 0xCC }).2.1.getD 2
        ⟨⟨0, 0, 0, 0, tp.TpMessageType.SINGLE_MESSAGE⟩, []⟩) = false ∧
    tp.runReassembly ⟨40, 10000⟩
      (tp.segment_message ⟨40, 10000⟩ 0
        { exMessage with payload := List.replicate 64 0xCC }).2.1 = none ∧
    tp.runReassembly ⟨40, 10000⟩
      (tp.segment_message ⟨40, 10000⟩ 0
        { exMessage with payload := List.replicate 64 0xCC }).2.1 ≠
      some (List.replicate 64 0xCC) := by
  refine ⟨by decide, by decide, by decide, by decide, by decide⟩

/-! ## Claim C6 -/

/-- Helper: the serialized length of a message is always
16 + e2e_size + payload length. -/
theorem serialize_length_eq (m : Message) :
    m.serialize.length = 16 + m.e2e_size + m.payload.length := by
  rcases hE : m.e2e_header with _ | hdr <;>
    simp [Message.serialize, Message.e2e_size, hE, be32, be16, e2e.E2EHeader.serialize,
      e2e.E2EHeader.get_header_size] <;> omega

/-- Helper: discharging the final validity guard of deserialize once the
parsed message is known to equal the target. -/
theorem deserialize_guard (m' target : Message) (h : m' = target)
    (hval : target.is_valid = true) :
    (if m'.is_valid = true then some m' else none) = some target := by
  subst h
  rw [if_pos hval]

set_option maxRecDepth 8192 in
/-- C1: counterexample to the claim as stated. `exHeuristicTrap` is a valid
message with no E2E header whose 12-byte payload `[1,2,3,4,5,6,7,8,0,1,2,3]`
passes the deserializer's E2E plausibility heuristic (for a no-E2E message
with a 12-byte payload the size equation `data.size == 16 + 12 + (length - 8
- 12)` always holds), so `deserialize(serialize(m))` returns a different
message: the payload bytes are consumed as an E2E header `{crc = 0x01020304,
counter = 0x05060708, data_id = 1, freshness = 0x0203}` and the payload comes
back empty. -/
theorem C1_counterexample :
    exHeuristicTrap.is_valid = true ∧ exHeuristicTrap.e2e_header = none ∧
    Message.deserialize exHeuristicTrap.serialize ≠ some exHeuristicTrap ∧
    Message.deserialize exHeuristicTrap.serialize =
      some { exHeuristicTrap with
             e2e_header := some ⟨0x01020304, 0x05060708, 0x0001, 0x0203⟩
             payload := [] } := by
  decide

set_option maxRecDepth 8192 in
set_option maxHeartbeats 2000000 in
/-- C1 (amended): for every well-formed valid message `m` whose payload fits a
uint32 length field, `serialize(m)` has length exactly
`16 + e2e_size(m) + m.payload.length`; and PROVIDED the deserializer's E2E
detection heuristic agrees with `m` (it reports an E2E header present exactly
when `m` carries one — which the counterexample shows is not automatic),
`deserialize(serialize(m))` succeeds and returns `m` field-by-field (the
model omits the timestamp field, which serialization never touches). -/
theorem C1_serialize_roundtrip (m : Message) (hwf : m.WF) (hv : m.is_valid = true)
    (hsz : m.payload.length + 20 < 2^32)
    (hheur : (Message.e2eDetect m.serialize m.length).isSome = m.e2e_header.isSome) :
    m.serialize.length = 16 + m.e2e_size + m.payload.length ∧
    Message.deserialize m.serialize = some m := by
  refine ⟨serialize_length_eq m, ?_⟩
  have hv0 := hv
  obtain ⟨sid, mid, len, cid, ssid, pv, iv, mt, rc, e2eh, pl⟩ := m
  obtain ⟨hsid, hmid, hlen, hcid, hssid, hpv8, hiv8, hmt8, hrc8, hhd, hplb⟩ := hwf
  dsimp only at hsz hheur hsid hmid hlen hcid hssid hpv8 hiv8 hmt8 hrc8 hhd hplb
  simp only [Message.is_valid, Message.has_valid_header, Message.has_valid_method_id,
    Message.has_valid_length, Message.has_valid_payload, Bool.and_eq_true,
    decide_eq_true_eq, beq_iff_eq, bne_iff_ne] at hv
  obtain ⟨⟨⟨⟨⟨⟨⟨hvmid, hvlen⟩, hvmt⟩, hvpv⟩, hviv⟩, hveq⟩, hvrc⟩, hvpl⟩ := hv
  rcases e2eh with _ | hdr
  · -- no E2E header
    simp [Message.e2e_size] at hveq
    have hveq' : len = 8 + pl.length := by
      rw [hveq]
      omega
    have hser : (⟨sid, mid, len, cid, ssid, pv, iv, mt, rc, none, pl⟩ : Message).serialize =
        (sid * 2^16 + mid) / 2^24 % 256 :: (sid * 2^16 + mid) / 2^16 % 256 ::
        (sid * 2^16 + mid) / 2^8 % 256 :: (sid * 2^16 + mid) % 256 ::
        len / 2^24 % 256 :: len / 2^16 % 256 :: len / 2^8 % 256 :: len % 256 ::
        (cid * 2^16 + ssid) / 2^24 % 256 :: (cid * 2^16 + ssid) / 2^16 % 256 ::
        (cid * 2^16 + ssid) / 2^8 % 256 :: (cid * 2^16 + ssid) % 256 ::
        pv :: iv :: mt :: rc :: pl := by
      simp [Message.serialize, be32, Message.message_id_u32, Message.request_id_u32]
    rw [hser] at hheur ⊢
    have hmsgid : sid * 2^16 + mid < 2^32 := by omega
    have hreqid : cid * 2^16 + ssid < 2^32 := by omega
    have h4 : rd32 ((sid * 2^16 + mid) / 2^24 % 256 :: (sid * 2^16 + mid) / 2^16 % 256 ::
        (sid * 2^16 + mid) / 2^8 % 256 :: (sid * 2^16 + mid) % 256 ::
        len / 2^24 % 256 :: len / 2^16 % 256 :: len / 2^8 % 256 :: len % 256 ::
        (cid * 2^16 + ssid) / 2^24 % 256 :: (cid * 2^16 + ssid) / 2^16 % 256 ::
        (cid * 2^16 + ssid) / 2^8 % 256 :: (cid * 2^16 + ssid) % 256 ::
        pv :: iv :: mt :: rc :: pl) 4 = len := by
      simp [rd32]
      omega
    have hdet : Message.e2eDetect ((sid * 2^16 + mid) / 2^24 % 256 :: (sid * 2^16 + mid) / 2^16 % 256 ::
        (sid * 2^16 + mid) / 2^8 % 256 :: (sid * 2^16 + mid) % 256 ::
        len / 2^24 % 256 :: len / 2^16 % 256 :: len / 2^8 % 256 :: len % 256 ::
        (cid * 2^16 + ssid) / 2^24 % 256 :: (cid * 2^16 + ssid) / 2^16 % 256 ::
        (cid * 2^16 + ssid) / 2^8 % 256 :: (cid * 2^16 + ssid) % 256 ::
        pv :: iv :: mt :: rc :: pl) len = none := by
      rcases hopt : Message.e2eDetect _ len with _ | x
      · rfl
      · rw [hopt] at hheur
        simp at hheur
    rw [Message.deserialize]
    rw [if_neg (by simp only [List.length_cons, MIN_MESSAGE_SIZE]; omega)]
    simp only [h4, hdet]
    rw [if_neg (show ¬ len < 8 by omega)]
    rw [if_neg (by
      simp only [Option.isSome_none, Bool.false_eq_true, if_false, List.length_cons]
      omega)]
    apply deserialize_guard _ _ ?_ hv0
    simp only [Message.mk.injEq]
    norm_num [List.getD, rd32]
    omega
  · -- E2E header present
    obtain ⟨crcv, cntv, didv, fvv⟩ := hdr
    simp only [Message.optionHeaderWF, e2e.E2EHeader.WF] at hhd
    obtain ⟨hcrc32, hcnt32, hdid16, hfv16⟩ := hhd
    simp [Message.e2e_size, e2e.E2EHeader.get_header_size] at hveq
    have hveq' : len = 20 + pl.length := by
      rw [hveq]
      omega
    have hser : (⟨sid, mid, len, cid, ssid, pv, iv, mt, rc,
        some ⟨crcv, cntv, didv, fvv⟩, pl⟩ : Message).serialize =
        (sid * 2^16 + mid) / 2^24 % 256 :: (sid * 2^16 + mid) / 2^16 % 256 ::
        (sid * 2^16 + mid) / 2^8 % 256 :: (sid * 2^16 + mid) % 256 ::
        len / 2^24 % 256 :: len / 2^16 % 256 :: len / 2^8 % 256 :: len % 256 ::
        (cid * 2^16 + ssid) / 2^24 % 256 :: (cid * 2^16 + ssid) / 2^16 % 256 ::
        (cid * 2^16 + ssid) / 2^8 % 256 :: (cid * 2^16 + ssid) % 256 ::
        pv :: iv :: mt :: rc ::
        crcv / 2^24 % 256 :: crcv / 2^16 % 256 :: crcv / 2^8 % 256 :: crcv % 256 ::
        cntv / 2^24 % 256 :: cntv / 2^16 % 256 :: cntv / 2^8 % 256 :: cntv % 256 ::
        didv / 2^8 % 256 :: didv % 256 :: fvv / 2^8 % 256 :: fvv % 256 :: pl := by
      simp [Message.serialize, be32, be16, e2e.E2EHeader.serialize,
        Message.message_id_u32, Message.request_id_u32]
    rw [hser] at hheur ⊢
    have h4 : rd32 ((sid * 2^16 + mid) / 2^24 % 256 :: (sid * 2^16 + mid) / 2^16 % 256 ::
        (sid * 2^16 + mid) / 2^8 % 256 :: (sid * 2^16 + mid) % 256 ::
        len / 2^24 % 256 :: len / 2^16 % 256 :: len / 2^8 % 256 :: len % 256 ::
        (cid * 2^16 + ssid) / 2^24 % 256 :: (cid * 2^16 + ssid) / 2^16 % 256 ::
        (cid * 2^16 + ssid) / 2^8 % 256 :: (cid * 2^16 + ssid) % 256 ::
        pv :: iv :: mt :: rc ::
        crcv / 2^24 % 256 :: crcv / 2^16 % 256 :: crcv / 2^8 % 256 :: crcv % 256 ::
        cntv / 2^24 % 256 :: cntv / 2^16 % 256 :: cntv / 2^8 % 256 :: cntv % 256 ::
        didv / 2^8 % 256 :: didv % 256 :: fvv / 2^8 % 256 :: fvv % 256 :: pl) 4 = len := by
      simp [rd32]
      omega
    have hparse : e2e.E2EHeader.deserializeAt
        ((sid * 2^16 + mid) / 2^24 % 256 :: (sid * 2^16 + mid) / 2^16 % 256 ::
        (sid * 2^16 + mid) / 2^8 % 256 :: (sid * 2^16 + mid) % 256 ::
        len / 2^24 % 256 :: len / 2^16 % 256 :: len / 2^8 % 256 :: len % 256 ::
        (cid * 2^16 + ssid) / 2^24 % 256 :: (cid * 2^16 + ssid) / 2^16 % 256 ::
        (cid * 2^16 + ssid) / 2^8 % 256 :: (cid * 2^16 + ssid) % 256 ::
        pv :: iv :: mt :: rc ::
        crcv / 2^24 % 256 :: crcv / 2^16 % 256 :: crcv / 2^8 % 256 :: crcv % 256 ::
        cntv / 2^24 % 256 :: cntv / 2^16 % 256 :: cntv / 2^8 % 256 :: cntv % 256 ::
        didv / 2^8 % 256 :: didv % 256 :: fvv / 2^8 % 256 :: fvv % 256 :: pl) 16 =
        some ⟨crcv, cntv, didv, fvv⟩ := by
      rw [e2e.E2EHeader.deserializeAt]
      rw [if_neg (by
        simp only [List.length_cons, e2e.E2EHeader.get_header_size]
        omega)]
      norm_num [List.getD, rd32, rd16, e2e.E2EHeader.mk.injEq]
      omega
    have hdet : Message.e2eDetect
        ((sid * 2^16 + mid) / 2^24 % 256 :: (sid * 2^16 + mid) / 2^16 % 256 ::
        (sid * 2^16 + mid) / 2^8 % 256 :: (sid * 2^16 + mid) % 256 ::
        len / 2^24 % 256 :: len / 2^16 % 256 :: len / 2^8 % 256 :: len % 256 ::
        (cid * 2^16 + ssid) / 2^24 % 256 :: (cid * 2^16 + ssid) / 2^16 % 256 ::
        (cid * 2^16 + ssid) / 2^8 % 256 :: (cid * 2^16 + ssid) % 256 ::
        pv :: iv :: mt :: rc ::
        crcv / 2^24 % 256 :: crcv / 2^16 % 256 :: crcv / 2^8 % 256 :: crcv % 256 ::
        cntv / 2^24 % 256 :: cntv / 2^16 % 256 :: cntv / 2^8 % 256 :: cntv % 256 ::
        didv / 2^8 % 256 :: didv % 256 :: fvv / 2^8 % 256 :: fvv % 256 :: pl) len =
        some ⟨crcv, cntv, didv, fvv⟩ := by
      rw [Message.e2eDetect] at hheur ⊢
      by_cases hcond : e2e.E2EHeader.get_header_size ≤
          ((sid * 2^16 + mid) / 2^24 % 256 :: (sid * 2^16 + mid) / 2^16 % 256 ::
          (sid * 2^16 + mid) / 2^8 % 256 :: (sid * 2^16 + mid) % 256 ::
          len / 2^24 % 256 :: len / 2^16 % 256 :: len / 2^8 % 256 :: len % 256 ::
          (cid * 2^16 + ssid) / 2^24 % 256 :: (cid * 2^16 + ssid) / 2^16 % 256 ::
          (cid * 2^16 + ssid) / 2^8 % 256 :: (cid * 2^16 + ssid) % 256 ::
          pv :: iv :: mt :: rc ::
          crcv / 2^24 % 256 :: crcv / 2^16 % 256 :: crcv / 2^8 % 256 :: crcv % 256 ::
          cntv / 2^24 % 256 :: cntv / 2^16 % 256 :: cntv / 2^8 % 256 :: cntv % 256 ::
          didv / 2^8 % 256 :: didv % 256 :: fvv / 2^8 % 256 :: fvv % 256 :: pl).length - 16 ∧
          8 + e2e.E2EHeader.get_header_size ≤ len ∧
          ((sid * 2^16 + mid) / 2^24 % 256 :: (sid * 2^16 + mid) / 2^16 % 256 ::
          (sid * 2^16 + mid) / 2^8 % 256 :: (sid * 2^16 + mid) % 256 ::
          len / 2^24 % 256 :: len / 2^16 % 256 :: len / 2^8 % 256 :: len % 256 ::
          (cid * 2^16 + ssid) / 2^24 % 256 :: (cid * 2^16 + ssid) / 2^16 % 256 ::
          (cid * 2^16 + ssid) / 2^8 % 256 :: (cid * 2^16 + ssid) % 256 ::
          pv :: iv :: mt :: rc ::
          crcv / 2^24 % 256 :: crcv / 2^16 % 256 :: crcv / 2^8 % 256 :: crcv % 256 ::
          cntv / 2^24 % 256 :: cntv / 2^16 % 256 :: cntv / 2^8 % 256 :: cntv % 256 ::
          didv / 2^8 % 256 :: didv % 256 :: fvv / 2^8 % 256 :: fvv % 256 :: pl).length =
            16 + e2e.E2EHeader.get_header_size + (len - 8 - e2e.E2EHeader.get_header_size)
      · rw [if_pos hcond] at hheur ⊢
        rw [hparse] at hheur ⊢
        dsimp only at hheur ⊢
        by_cases hinner : didv ≠ 0 ∧ (crcv ≠ 0 ∨ cntv ≠ 0 ∨ fvv ≠ 0) ∧
            Message.looksLikePayloadData ⟨crcv, cntv, didv, fvv⟩ = false
        · rw [if_pos hinner]
        · rw [if_neg hinner] at hheur
          simp at hheur
      · rw [if_neg hcond] at hheur
        simp at hheur
    rw [Message.deserialize]
    rw [if_neg (by simp only [List.length_cons, MIN_MESSAGE_SIZE]; omega)]
    simp only [h4, hdet, Option.isSome_some, if_true]
    rw [if_neg (show ¬ len < 8 by omega)]
    rw [if_neg (by
      simp only [List.length_cons, e2e.E2EHeader.get_header_size]
      omega)]
    apply deserialize_guard _ _ ?_ hv0
    simp only [Message.mk.injEq]
    norm_num [List.getD, rd32, e2e.E2EHeader.get_header_size]
    omega

set_option maxRecDepth 8192 in
/-- C1: witness. The amended round-trip theorem applied to a concrete valid
message with an E2E header and payload `[9]`. -/
theorem C1_witness :
    exE2EMessage.serialize.length = 16 + exE2EMessage.e2e_size + exE2EMessage.payload.length ∧
    Message.deserialize exE2EMessage.serialize = some exE2EMessage :=
  C1_serialize_roundtrip exE2EMessage (by decide) (by decide) (by decide) (by decide)

set_option maxRecDepth 16384 in
/-- C6 evaluated at a failing input (code bug): with the default
`max_segment_size = 1392` and a 1393-byte payload (the repository's own
`MaximumSegmentSize` test input), the second segment's `segment_offset` is
`1392 - 20 = 1372`, which is not a multiple of 16, and the 4-byte TP header
written into that segment encodes `offset_units = 1372 / 16 = 85`, i.e.
`offset_units * 16 = 1360 ≠ 1372`: the 28-bit offset-in-16-byte-units field
cannot represent the offset the segmenter actually used. -/
theorem C6_tp_offset_misaligned :
    (tp.segment_message ⟨1392, 10000⟩ 0
      { exMessage with payload := List.replicate 1393 0xAA }).1 = tp.TpResult.SUCCESS ∧
    (tp.segment_message ⟨1392, 10000⟩ 0
      { exMessage with payload := List.replicate 1393 0xAA }).2.1.length = 2 ∧
    ((tp.segment_message ⟨1392, 10000⟩ 0
      { exMessage with payload := List.replicate 1393 0xAA }).2.1.getD 1
      ⟨⟨0, 0, 0, 0, tp.TpMessageType.SINGLE_MESSAGE⟩, []⟩).header.segment_offset = 1372 ∧
    1372 % 16 = 12 ∧
    rd32 ((tp.segment_message ⟨1392, 10000⟩ 0
      { exMessage with payload := List.replicate 1393 0xAA }).2.1.getD 1
      ⟨⟨0, 0, 0, 0, tp.TpMessageType.SINGLE_MESSAGE⟩, []⟩).payload 0 / 16 * 16 = 1360 := by
  refine ⟨by decide, by decide, by decide, by decide, by decide⟩

end someip
namespace someip

/-- Helper: entries of a byte list read through getD with default 0 are bytes. -/
theorem getD_lt_256 (data : List Nat) (i : Nat) (hb : ∀ b ∈ data, b < 256) :
    data.getD i 0 < 256 := by
  rcases Nat.lt_or_ge i data.length with h | h
  · rw [List.getD_eq_getElem _ _ h]
    exact hb _ (List.getElem_mem h)
  · rw [List.getD_eq_default _ _ h]
    omega

/-- Helper: the repeated-byte-pattern test spelled out propositionally. -/
theorem looksLikePayloadData_eq_false_iff (h : e2e.E2EHeader) :
    Message.looksLikePayloadData h = false ↔
      (¬(h.crc % 256 = h.crc / 2^8 % 256 ∧ h.crc / 2^8 % 256 = h.crc / 2^16 % 256 ∧
         h.crc / 2^16 % 256 = h.crc / 2^24 % 256) ∧
       ¬(h.counter % 256 = h.counter / 2^8 % 256 ∧
         h.counter / 2^8 % 256 = h.counter / 2^16 % 256 ∧
         h.counter / 2^16 % 256 = h.counter / 2^24 % 256) ∧
       h.freshness_value % 256 ≠ h.freshness_value / 2^8 % 256) := by
  simp [Message.looksLikePayloadData, and_assoc]

/-- Helper: byte extraction from a 32-bit big-endian recomposition. -/
theorem be4_mod0 (b0 b1 b2 b3 : Nat) (h3 : b3 < 256) :
    (b0*16777216 + b1*65536 + b2*256 + b3) % 256 = b3 := by omega

theorem be4_mod1 (b0 b1 b2 b3 : Nat) (h2 : b2 < 256) (h3 : b3 < 256) :
    (b0*16777216 + b1*65536 + b2*256 + b3) / 256 % 256 = b2 := by omega

theorem be4_mod2 (b0 b1 b2 b3 : Nat) (h1 : b1 < 256) (h2 : b2 < 256) (h3 : b3 < 256) :
    (b0*16777216 + b1*65536 + b2*256 + b3) / 65536 % 256 = b1 := by omega

theorem be4_mod3 (b0 b1 b2 b3 : Nat) (h0 : b0 < 256) (h1 : b1 < 256) (h2 : b2 < 256)
    (h3 : b3 < 256) :
    (b0*16777216 + b1*65536 + b2*256 + b3) / 16777216 % 256 = b0 := by omega

theorem be2_mod0 (b0 b1 : Nat) (h1 : b1 < 256) : (b0*256 + b1) % 256 = b1 := by omega

theorem be2_mod1 (b0 b1 : Nat) (h0 : b0 < 256) (h1 : b1 < 256) :
    (b0*256 + b1) / 256 % 256 = b0 := by omega

/-- Helper: the repeated-byte-pattern test of the tentatively parsed E2E
header, characterized directly on the raw buffer bytes. -/
theorem looksLike_rd_iff (data : List Nat)
    (h16 : data.getD 16 0 < 256) (h17 : data.getD 17 0 < 256) (h18 : data.getD 18 0 < 256)
    (h19 : data.getD 19 0 < 256) (h20 : data.getD 20 0 < 256) (h21 : data.getD 21 0 < 256)
    (h22 : data.getD 22 0 < 256) (h23 : data.getD 23 0 < 256) (h26 : data.getD 26 0 < 256)
    (h27 : data.getD 27 0 < 256) :
    Message.looksLikePayloadData
      ⟨rd32 data 16, rd32 data 20, rd16 data 24, rd16 data 26⟩ = false ↔
      (¬(data.getD 16 0 = data.getD 17 0 ∧ data.getD 17 0 = data.getD 18 0 ∧
         data.getD 18 0 = data.getD 19 0) ∧
       ¬(data.getD 20 0 = data.getD 21 0 ∧ data.getD 21 0 = data.getD 22 0 ∧
         data.getD 22 0 = data.getD 23 0) ∧
       data.getD 26 0 ≠ data.getD 27 0) := by
  rw [looksLikePayloadData_eq_false_iff]
  dsimp only
  simp only [rd32, rd16, Nat.reduceAdd, Nat.reducePow]
  rw [be4_mod0 _ _ _ _ h19, be4_mod1 _ _ _ _ h18 h19, be4_mod2 _ _ _ _ h17 h18 h19,
    be4_mod3 _ _ _ _ h16 h17 h18 h19, be4_mod0 _ _ _ _ h23, be4_mod1 _ _ _ _ h22 h23,
    be4_mod2 _ _ _ _ h21 h22 h23, be4_mod3 _ _ _ _ h20 h21 h22 h23,
    be2_mod0 _ _ h27, be2_mod1 _ _ h26 h27]
  omega

set_option maxHeartbeats 1000000 in
/-- C4: in `Message::deserialize` (over byte-valued buffers), an E2E header is
treated as present if and only if the spec's conditions hold on the raw
bytes: at least 12 bytes remain after the 16 fixed header bytes, the length
field is at least 20, the total buffer size equals `16 + 12 + (length - 8 -
12)`, the tentative header has nonzero data_id, at least one of
crc/counter/freshness nonzero, the four crc bytes not all equal, the four
counter bytes not all equal, and the two freshness bytes unequal; and every
successfully deserialized message takes the detected header as its E2E
header and consumes the remaining bytes (after the header if detected,
otherwise all of them) as payload. -/
theorem C4_e2e_heuristic (data : List Nat) (hb : ∀ b ∈ data, b < 256) :
    ((Message.e2eDetect data (rd32 data 4)).isSome = true ↔
      Message.e2eHeuristicSpec data (rd32 data 4)) ∧
    ∀ m, Message.deserialize data = some m →
      m.e2e_header = Message.e2eDetect data (rd32 data 4) ∧
      m.payload = data.drop
        (16 + if (Message.e2eDetect data (rd32 data 4)).isSome then 12 else 0) := by
  constructor
  · have h16 := getD_lt_256 data 16 hb
    have h17 := getD_lt_256 data 17 hb
    have h18 := getD_lt_256 data 18 hb
    have h19 := getD_lt_256 data 19 hb
    have h20 := getD_lt_256 data 20 hb
    have h21 := getD_lt_256 data 21 hb
    have h22 := getD_lt_256 data 22 hb
    have h23 := getD_lt_256 data 23 hb
    have h26 := getD_lt_256 data 26 hb
    have h27 := getD_lt_256 data 27 hb
    rw [Message.e2eDetect]
    by_cases houter : e2e.E2EHeader.get_header_size ≤ data.length - 16 ∧
        8 + e2e.E2EHeader.get_header_size ≤ rd32 data 4 ∧
        data.length = 16 + e2e.E2EHeader.get_header_size +
          (rd32 data 4 - 8 - e2e.E2EHeader.get_header_size)
    · rw [if_pos houter]
      have hds : e2e.E2EHeader.deserializeAt data 16 =
          some ⟨rd32 data 16, rd32 data 20, rd16 data 24, rd16 data 26⟩ := by
        rw [e2e.E2EHeader.deserializeAt]
        rw [if_neg (by
          simp only [e2e.E2EHeader.get_header_size] at houter ⊢
          omega)]
      rw [hds]
      dsimp only
      by_cases hinner : rd16 data 24 ≠ 0 ∧
          (rd32 data 16 ≠ 0 ∨ rd32 data 20 ≠ 0 ∨ rd16 data 26 ≠ 0) ∧
          Message.looksLikePayloadData ⟨rd32 data 16, rd32 data 20, rd16 data 24,
            rd16 data 26⟩ = false
      · rw [if_pos hinner]
        simp only [Option.isSome_some, true_iff]
        rw [Message.e2eHeuristicSpec]
        rw [looksLike_rd_iff data h16 h17 h18 h19 h20 h21 h22 h23 h26 h27] at hinner
        simp only [e2e.E2EHeader.get_header_size] at houter
        exact ⟨by omega, by omega, by omega, hinner.1, hinner.2.1, hinner.2.2.1,
          hinner.2.2.2.1, hinner.2.2.2.2⟩
      · rw [if_neg hinner]
        simp only [Option.isSome_none, Bool.false_eq_true, false_iff]
        rw [Message.e2eHeuristicSpec]
        rw [looksLike_rd_iff data h16 h17 h18 h19 h20 h21 h22 h23 h26 h27] at hinner
        intro hs
        exact hinner ⟨hs.2.2.2.1, hs.2.2.2.2.1, hs.2.2.2.2.2⟩
    · rw [if_neg houter]
      simp only [Option.isSome_none, Bool.false_eq_true, false_iff]
      rw [Message.e2eHeuristicSpec]
      simp only [e2e.E2EHeader.get_header_size] at houter
      intro hs
      obtain ⟨hs1, hs2, hs3, _⟩ := hs
      exact houter ⟨by omega, by omega, by omega⟩
  · intro m hm
    rw [Message.deserialize] at hm
    dsimp only at hm
    have hsplit : ∀ (c : Prop) (inst : Decidable c) (x : Option Message),
        (if c then none else x) = some m → ¬c ∧ x = some m := by
      intro c inst x h
      by_cases hc : c
      · rw [if_pos hc] at h
        exact Option.noConfusion h
      · rw [if_neg hc] at h
        exact ⟨hc, h⟩
    obtain ⟨-, hm⟩ := hsplit _ _ _ hm
    obtain ⟨-, hm⟩ := hsplit _ _ _ hm
    obtain ⟨-, hm⟩ := hsplit _ _ _ hm
    have hfinal : ∀ r : Message, (if r.is_valid then some r else none) = some m → r = m := by
      intro r h
      by_cases hv : r.is_valid = true
      · rw [if_pos hv] at h
        exact Option.some.inj h
      · rw [if_neg hv] at h
        exact Option.noConfusion h
    have hrm := hfinal _ hm
    subst hrm
    refine ⟨rfl, ?_⟩
    simp [e2e.E2EHeader.get_header_size]

set_option maxRecDepth 8192 in
/-- C4: witness. The heuristic characterization applied to the serialized
bytes of a concrete valid message. -/
theorem C4_witness :
    (∀ b ∈ Message.serialize exHeuristicTrap, b < 256) ∧
    (((Message.e2eDetect (Message.serialize exHeuristicTrap)
        (rd32 (Message.serialize exHeuristicTrap) 4)).isSome = true) ↔
      Message.e2eHeuristicSpec (Message.serialize exHeuristicTrap)
        (rd32 (Message.serialize exHeuristicTrap) 4)) ∧
    (∀ m, Message.deserialize (Message.serialize exHeuristicTrap) = some m →
      m.e2e_header = Message.e2eDetect (Message.serialize exHeuristicTrap)
        (rd32 (Message.serialize exHeuristicTrap) 4) ∧
      m.payload = (Message.serialize exHeuristicTrap).drop
        (16 + if (Message.e2eDetect (Message.serialize exHeuristicTrap)
          (rd32 (Message.serialize exHeuristicTrap) 4)).isSome then 12 else 0)) :=
  ⟨by decide, C4_e2e_heuristic (Message.serialize exHeuristicTrap) (by decide)⟩

namespace serialization

/-- Helper: one deserializer operation never changes the buffer, and either
leaves the position where it was or moves it to at most the buffer length. -/
theorem runOp_step (d : Deserializer) (op : DeserOp) :
    (runOp d op).buffer = d.buffer ∧
    ((runOp d op).position ≤ d.buffer.length ∨ (runOp d op).position = d.position) := by
  cases op with
  | rbool =>
    by_cases h : d.buffer.length < d.position + 1 <;>
      simp [runOp, Deserializer.deserialize_bool, h] <;> omega
  | ru8 =>
    by_cases h : d.buffer.length < d.position + 1 <;>
      simp [runOp, Deserializer.deserialize_uint8, h] <;> omega
  | ru16 =>
    by_cases h : d.buffer.length < d.position + 2 <;>
      simp [runOp, Deserializer.deserialize_uint16, Deserializer.read_be_uint16,
        Deserializer.ofRead, h] <;> omega
  | ru32 =>
    by_cases h : d.buffer.length < d.position + 4 <;>
      simp [runOp, Deserializer.deserialize_uint32, Deserializer.read_be_uint32,
        Deserializer.ofRead, h] <;> omega
  | ru64 =>
    by_cases h : d.buffer.length < d.position + 8 <;>
      simp [runOp, Deserializer.deserialize_uint64, Deserializer.read_be_uint64,
        Deserializer.ofRead, h] <;> omega
  | ri8 =>
    by_cases h : d.buffer.length < d.position + 1 <;>
      simp [runOp, Deserializer.deserialize_int8, Deserializer.deserialize_uint8, h] <;> omega
  | ri16 =>
    by_cases h : d.buffer.length < d.position + 2 <;>
      simp [runOp, Deserializer.deserialize_int16, Deserializer.read_be_uint16, h] <;> omega
  | ri32 =>
    by_cases h : d.buffer.length < d.position + 4 <;>
      simp [runOp, Deserializer.deserialize_int32, Deserializer.read_be_uint32, h] <;> omega
  | ri64 =>
    by_cases h : d.buffer.length < d.position + 8 <;>
      simp [runOp, Deserializer.deserialize_int64, Deserializer.read_be_uint64, h] <;> omega
  | rf32 =>
    by_cases h : d.buffer.length < d.position + 4 <;>
      simp [runOp, Deserializer.deserialize_float, Deserializer.read_be_uint32,
        Deserializer.ofRead, h] <;> omega
  | rf64 =>
    by_cases h : d.buffer.length < d.position + 8 <;>
      simp [runOp, Deserializer.deserialize_double, Deserializer.read_be_uint64,
        Deserializer.ofRead, h] <;> omega
  | rstr =>
    by_cases h1 : d.buffer.length < d.position + 4
    · simp [runOp, Deserializer.deserialize_string, Deserializer.deserialize_uint32,
        Deserializer.read_be_uint32, Deserializer.ofRead, h1]
    · by_cases h2 : d.buffer.length < d.position + 4 + rd32 d.buffer d.position
      · simp [runOp, Deserializer.deserialize_string, Deserializer.deserialize_uint32,
          Deserializer.read_be_uint32, Deserializer.ofRead, h1, h2] <;> omega
      · simp [runOp, Deserializer.deserialize_string, Deserializer.deserialize_uint32,
          Deserializer.read_be_uint32, Deserializer.ofRead, Deserializer.align_to,
          Deserializer.skip, h1, h2] <;> omega
  | setPos p =>
    by_cases h : p ≤ d.buffer.length <;>
      simp [runOp, Deserializer.set_position, h] <;> omega
  | opSkip n =>
    simp [runOp, Deserializer.skip] <;> omega
  | opAlign a =>
    simp [runOp, Deserializer.align_to, Deserializer.skip] <;> omega
  | opReset =>
    simp [runOp, Deserializer.reset]

/-- Helper: a sequence of deserializer operations keeps the position within
the buffer. -/
theorem runOps_le (d : Deserializer) (ops : List DeserOp)
    (hd : d.position ≤ d.buffer.length) :
    (runOps d ops).buffer = d.buffer ∧ (runOps d ops).position ≤ d.buffer.length := by
  induction ops generalizing d with
  | nil => exact ⟨rfl, hd⟩
  | cons op t ih =>
    have h1 := runOp_step d op
    have hd' : (runOp d op).position ≤ (runOp d op).buffer.length := by
      rw [h1.1]
      rcases h1.2 with h | h <;> omega
    have h2 := ih (runOp d op) hd'
    have hstep : runOps d (op :: t) = runOps (runOp d op) t := rfl
    rw [hstep, h2.1, h1.1]
    refine ⟨rfl, ?_⟩
    have := h2.2
    rw [h1.1] at this
    exact this

end serialization

/-- C10: counterexample to the claim as stated.  On the 4-byte buffer
`[0,0,0,5]`, `deserialize_string` reads the length prefix 5, then fails with
MALFORMED_MESSAGE because only 0 bytes remain - but the position is left at
4, not at the initial 0: a failed read that does NOT leave the position
unchanged. -/
theorem C10_counterexample :
    (serialization.Deserializer.ofBuffer [0, 0, 0, 5]).position = 0 ∧
    (serialization.Deserializer.deserialize_string
      (serialization.Deserializer.ofBuffer [0, 0, 0, 5])).1 =
      Except.error Result.MALFORMED_MESSAGE ∧
    (serialization.Deserializer.deserialize_string
      (serialization.Deserializer.ofBuffer [0, 0, 0, 5])).2.position = 4 :=
  ⟨rfl, rfl, rfl⟩

/-- C10 (amended): the read position never exceeds the buffer size over any
sequence of deserializer operations (and the buffer itself never changes);
each fixed-size read of n bytes either fails with MALFORMED_MESSAGE leaving
the state unchanged (exactly when fewer than n bytes remain) or succeeds
advancing the position by exactly n; set_position rejects positions past the
end and accepts the rest; skip and align_to clamp the position to the buffer
size; and a failed deserialize_string returns MALFORMED_MESSAGE but may
leave the position advanced past the 4-byte length prefix it consumed
(the correction to the claim as stated). -/
theorem C10_deserializer_invariant :
    (∀ d : serialization.Deserializer, ∀ ops : List serialization.DeserOp,
       d.position ≤ d.buffer.length →
       (serialization.runOps d ops).buffer = d.buffer ∧
       (serialization.runOps d ops).position ≤ d.buffer.length) ∧
    (∀ data : List Nat, ∀ ops : List serialization.DeserOp,
       (serialization.runOps (serialization.Deserializer.ofBuffer data) ops).position ≤
         data.length) ∧
    (∀ d : serialization.Deserializer,
       (d.buffer.length < d.position + 1 →
          d.deserialize_bool = (Except.error Result.MALFORMED_MESSAGE, d) ∧
          d.deserialize_uint8 = (Except.error Result.MALFORMED_MESSAGE, d)) ∧
       (d.position + 1 ≤ d.buffer.length →
          (d.deserialize_bool).1.isOk = true ∧
          (d.deserialize_bool).2 = { d with position := d.position + 1 } ∧
          (d.deserialize_uint8).1.isOk = true ∧
          (d.deserialize_uint8).2 = { d with position := d.position + 1 })) ∧
    (∀ d : serialization.Deserializer,
       (d.buffer.length < d.position + 2 →
          d.deserialize_uint16 = (Except.error Result.MALFORMED_MESSAGE, d) ∧
          d.deserialize_int16 = (Except.error Result.MALFORMED_MESSAGE, d)) ∧
       (d.position + 2 ≤ d.buffer.length →
          (d.deserialize_uint16).1.isOk = true ∧
          (d.deserialize_uint16).2 = { d with position := d.position + 2 } ∧
          (d.deserialize_int16).1.isOk = true ∧
          (d.deserialize_int16).2 = { d with position := d.position + 2 })) ∧
    (∀ d : serialization.Deserializer,
       (d.buffer.length < d.position + 4 →
          d.deserialize_uint32 = (Except.error Result.MALFORMED_MESSAGE, d) ∧
          d.deserialize_int32 = (Except.error Result.MALFORMED_MESSAGE, d) ∧
          d.deserialize_float = (Except.error Result.MALFORMED_MESSAGE, d)) ∧
       (d.position + 4 ≤ d.buffer.length →
          (d.deserialize_uint32).1.isOk = true ∧
          (d.deserialize_uint32).2 = { d with position := d.position + 4 } ∧
          (d.deserialize_int32).1.isOk = true ∧
          (d.deserialize_int32).2 = { d with position := d.position + 4 } ∧
          (d.deserialize_float).1.isOk = true ∧
          (d.deserialize_float).2 = { d with position := d.position + 4 })) ∧
    (∀ d : serialization.Deserializer,
       (d.buffer.length < d.position + 8 →
          d.deserialize_uint64 = (Except.error Result.MALFORMED_MESSAGE, d) ∧
          d.deserialize_int64 = (Except.error Result.MALFORMED_MESSAGE, d) ∧
          d.deserialize_double = (Except.error Result.MALFORMED_MESSAGE, d)) ∧
       (d.position + 8 ≤ d.buffer.length →
          (d.deserialize_uint64).1.isOk = true ∧
          (d.deserialize_uint64).2 = { d with position := d.position + 8 } ∧
          (d.deserialize_int64).1.isOk = true ∧
          (d.deserialize_int64).2 = { d with position := d.position + 8 } ∧
          (d.deserialize_double).1.isOk = true ∧
          (d.deserialize_double).2 = { d with position := d.position + 8 })) ∧
    (∀ d : serialization.Deserializer, ∀ pos : Nat,
       (d.buffer.length < pos → d.set_position pos = (false, d)) ∧
       (pos ≤ d.buffer.length → d.set_position pos = (true, { d with position := pos }))) ∧
    (∀ d : serialization.Deserializer, ∀ n : Nat,
       (d.skip n).position = min (d.position + n) d.buffer.length ∧
       (d.skip n).position ≤ d.buffer.length) ∧
    (∀ d : serialization.Deserializer, ∀ a : Nat,
       (d.align_to a).position ≤ d.buffer.length) ∧
    (∀ d : serialization.Deserializer, (d.deserialize_string).1.isOk = false →
       (d.deserialize_string).1 = Except.error Result.MALFORMED_MESSAGE ∧
       ((d.deserialize_string).2 = d ∨
        (d.deserialize_string).2 = { d with position := d.position + 4 })) := by
  refine ⟨serialization.runOps_le, ?_, ?_, ?_, ?_, ?_, ?_, ?_, ?_, ?_⟩
  · intro data ops
    exact (serialization.runOps_le (serialization.Deserializer.ofBuffer data) ops
      (Nat.zero_le _)).2
  · intro d
    constructor
    · intro h
      simp [serialization.Deserializer.deserialize_bool,
        serialization.Deserializer.deserialize_uint8, h]
    · intro h
      simp [serialization.Deserializer.deserialize_bool,
        serialization.Deserializer.deserialize_uint8, Except.isOk, Except.toBool,
        show ¬ d.buffer.length < d.position + 1 by omega]
  · intro d
    constructor
    · intro h
      simp [serialization.Deserializer.deserialize_uint16,
        serialization.Deserializer.deserialize_int16,
        serialization.Deserializer.read_be_uint16, serialization.Deserializer.ofRead, h]
    · intro h
      simp [serialization.Deserializer.deserialize_uint16,
        serialization.Deserializer.deserialize_int16,
        serialization.Deserializer.read_be_uint16, serialization.Deserializer.ofRead,
        Except.isOk, Except.toBool,
        show ¬ d.buffer.length < d.position + 2 by omega]
  · intro d
    constructor
    · intro h
      simp [serialization.Deserializer.deserialize_uint32,
        serialization.Deserializer.deserialize_int32,
        serialization.Deserializer.deserialize_float,
        serialization.Deserializer.read_be_uint32, serialization.Deserializer.ofRead, h]
    · intro h
      simp [serialization.Deserializer.deserialize_uint32,
        serialization.Deserializer.deserialize_int32,
        serialization.Deserializer.deserialize_float,
        serialization.Deserializer.read_be_uint32, serialization.Deserializer.ofRead,
        Except.isOk, Except.toBool,
        show ¬ d.buffer.length < d.position + 4 by omega]
  · intro d
    constructor
    · intro h
      simp [serialization.Deserializer.deserialize_uint64,
        serialization.Deserializer.deserialize_int64,
        serialization.Deserializer.deserialize_double,
        serialization.Deserializer.read_be_uint64, serialization.Deserializer.ofRead, h]
    · intro h
      simp [serialization.Deserializer.deserialize_uint64,
        serialization.Deserializer.deserialize_int64,
        serialization.Deserializer.deserialize_double,
        serialization.Deserializer.read_be_uint64, serialization.Deserializer.ofRead,
        Except.isOk, Except.toBool,
        show ¬ d.buffer.length < d.position + 8 by omega]
  · intro d pos
    constructor
    · intro h
      simp [serialization.Deserializer.set_position, show ¬ pos ≤ d.buffer.length by omega]
    · intro h
      simp [serialization.Deserializer.set_position, h]
  · intro d n
    refine ⟨rfl, ?_⟩
    simp [serialization.Deserializer.skip]
  · intro d a
    simp [serialization.Deserializer.align_to, serialization.Deserializer.skip]
  · intro d
    by_cases h1 : d.buffer.length < d.position + 4
    · intro _
      constructor
      · simp [serialization.Deserializer.deserialize_string,
          serialization.Deserializer.deserialize_uint32,
          serialization.Deserializer.read_be_uint32, serialization.Deserializer.ofRead, h1]
      · left
        simp [serialization.Deserializer.deserialize_string,
          serialization.Deserializer.deserialize_uint32,
          serialization.Deserializer.read_be_uint32, serialization.Deserializer.ofRead, h1]
    · by_cases h2 : d.buffer.length < d.position + 4 + rd32 d.buffer d.position
      · intro _
        constructor
        · simp [serialization.Deserializer.deserialize_string,
            serialization.Deserializer.deserialize_uint32,
            serialization.Deserializer.read_be_uint32, serialization.Deserializer.ofRead,
            h1, h2]
        · right
          simp [serialization.Deserializer.deserialize_string,
            serialization.Deserializer.deserialize_uint32,
            serialization.Deserializer.read_be_uint32, serialization.Deserializer.ofRead,
            h1, h2]
      · intro hfail
        exfalso
        simp [serialization.Deserializer.deserialize_string,
          serialization.Deserializer.deserialize_uint32,
          serialization.Deserializer.read_be_uint32, serialization.Deserializer.ofRead,
          Except.isOk, Except.toBool, h1, h2] at hfail

/-- C10: witness. The position bound of the amended theorem evaluated for a
concrete buffer and operation sequence. -/
theorem C10_witness :
    (serialization.runOps (serialization.Deserializer.ofBuffer [1, 2, 3])
      [serialization.DeserOp.rstr, serialization.DeserOp.opSkip 2,
       serialization.DeserOp.ru16]).position ≤ 3 :=
  C10_deserializer_invariant.2.1 [1, 2, 3]
    [serialization.DeserOp.rstr, serialization.DeserOp.opSkip 2,
     serialization.DeserOp.ru16]

end someip
